import Mathlib

/-!
Verification of the configuration/database core of the spx-pipeline CLI.

The definitions below are a shallow embedding of the TypeScript source:

* `src/infrastructure/database/DatabaseInitialization.ts` — table lifecycle
  (CHECK / SAFE_INIT / FORCE_INIT);
* `src/infrastructure/database/ConfigurationRepository.ts` — key-value
  repository over the `configuration` table;
* `src/cli/config/ConfigurationService.ts` — typed-config service
  (serialize/deserialize, per-key validation);
* `src/types/domain/Configuration.ts` — schema rules and `DEFAULT_CONFIG`;
* `src/types/domain/ConfigurationValidation.ts` — cross-field rules;
* `src/cli/commands/database.ts` — the `database force-init` command guard.

The SQLite engine is modelled as a functioning store: a database is a list of
tables with row counts, the `configuration` table is a list of rows.  The
JavaScript runtime's `Date` is modelled as milliseconds since the Unix epoch
(an `Int`), with the process time zone taken to be UTC; date-string parsing
and `Date.prototype.toString` formatting are modelled by executable functions
on that representation.  Effects (`Effect.gen`) become explicit state passing;
a failing effect short-circuits, so each operation returns the post-state
together with an `Except` describing success or the raised error.

The file is organised as definitions first, then theorems.
-/

set_option maxRecDepth 4000
set_option maxHeartbeats 1000000

namespace SpxPipeline

/-! ## Definitions: table lifecycle manager (`DatabaseInitialization.ts`) -/

/-- Snapshot of one table, as produced by `checkTableStatus`.  The source
field `exists` is a Lean keyword, so it is called `tableExists` here. -/
structure TableInfo where
  name : String
  tableExists : Bool
  rowCount : Nat
deriving DecidableEq, Repr

/-- The database as seen through `sqlite_master` / `COUNT(*)`: the list of
existing tables with their row counts. -/
structure Database where
  tables : List (String × Nat)
deriving DecidableEq, Repr

def lookupTable (db : Database) (tableName : String) : Option Nat :=
  db.tables.lookup tableName

/-- Embeds `checkTableStatus`: existence via the catalog, row count via
`COUNT(*)` (0 for a missing table). -/
def checkTableStatus (db : Database) (tableName : String) : TableInfo :=
  { name := tableName
    tableExists := (lookupTable db tableName).isSome
    rowCount := (lookupTable db tableName).getD 0 }

/-- The fixed list of application tables in `getDatabaseStatus`
(`const tables = ["configuration"]`). -/
def knownTables : List String := ["configuration"]

/-- Embeds `getDatabaseStatus`. -/
def getDatabaseStatus (db : Database) : List TableInfo :=
  knownTables.map (fun t => checkTableStatus db t)

/-- Embeds `createConfigurationTable` from `ConfigurationRepository.ts`:
`CREATE TABLE IF NOT EXISTS configuration (...)`. -/
def createConfigurationTable (db : Database) : Database :=
  if (lookupTable db "configuration").isSome then db
  else { tables := db.tables ++ [("configuration", 0)] }

/-- Result value of `initializeTablesIfNeeded`. -/
structure InitResult where
  created : List String
  skipped : List String
deriving DecidableEq, Repr

/-- Embeds `initializeTablesIfNeeded` (SAFE_INIT).  If any known table holds
rows the whole operation is skipped; otherwise missing tables are created. -/
def initTablesIfNeeded (db : Database) : Database × InitResult :=
  let statuses := getDatabaseStatus db
  let tablesWithData := statuses.filter (fun s => s.tableExists && decide (0 < s.rowCount))
  if 0 < tablesWithData.length then
    (db, { created := [], skipped := tablesWithData.map (fun t => t.name) })
  else
    let missingTables := statuses.filter (fun s => !s.tableExists)
    if missingTables.length = 0 then
      (db, { created := [], skipped := [] })
    else
      (createConfigurationTable db,
        { created := missingTables.map (fun t => t.name), skipped := [] })

/-- Error message of the `Effect.fail(new Error(...))` raised inside
`forceInitializeAllTables` whenever any table exists. -/
def forceInitInternalMessage : String :=
  "Force initialization requires explicit confirmation. Use --force-confirm flag."

/-- Embeds `forceInitializeAllTables` (FORCE_INIT) exactly as written in
`DatabaseInitialization.ts`: when any known table currently exists it fails
(without dropping anything); only when none exists does it create tables. -/
def forceInitAllTables (db : Database) : Database × Except String Unit :=
  let statuses := getDatabaseStatus db
  let existingTables := statuses.filter (fun s => s.tableExists)
  if 0 < existingTables.length then
    (db, Except.error forceInitInternalMessage)
  else
    (createConfigurationTable db, Except.ok ())

/-- Error message of the confirmation guard in `databaseForceInitCommand`
(`database.ts`). -/
def forceConfirmMessage : String :=
  "Force initialization requires --force-confirm flag.\nThis operation will DELETE ALL existing tables and data.\nUse: database force-init --force-confirm"

/-- Embeds the `database force-init` command handler: without the
`--force-confirm` flag it fails before touching the database; with the flag
it runs `forceInitializeAllTables`. -/
def databaseForceInitCommand (forceConfirm : Bool) (db : Database) :
    Database × Except String Unit :=
  if !forceConfirm then (db, Except.error forceConfirmMessage)
  else forceInitAllTables db

/-! ## Definitions: key-value repository (`ConfigurationRepository.ts`) -/

/-- One row of the `configuration` table
(`key TEXT PRIMARY KEY, value TEXT NOT NULL, updated_at DATETIME`). -/
structure ConfigRow where
  key : String
  value : String
  updated_at : String
deriving DecidableEq, Repr

/-- The `configuration` table. -/
abbrev Table := List ConfigRow

/-- Embeds `setConfiguration`: `INSERT ... ON CONFLICT(key) DO UPDATE SET
value = excluded.value, updated_at = CURRENT_TIMESTAMP`.  `now` is the
engine's `CURRENT_TIMESTAMP` at execution time (also the column default used
on insert). -/
def setConfiguration (now k v : String) (t : Table) : Table :=
  if t.any (fun r => r.key == k) then
    t.map (fun r => if r.key == k then { key := k, value := v, updated_at := now } else r)
  else
    t ++ [{ key := k, value := v, updated_at := now }]

/-- Embeds `getConfiguration`: the value of the first row matching the key,
or a not-found failure. -/
def getConfiguration (k : String) (t : Table) : Option String :=
  (t.find? (fun r => r.key == k)).map (fun r => r.value)

def insertByKey (r : ConfigRow) : List ConfigRow → List ConfigRow
  | [] => [r]
  | x :: xs => if r.key ≤ x.key then r :: x :: xs else x :: insertByKey r xs

/-- Key-ordered insertion sort (primary keys are distinct, so any sort
realizes `ORDER BY key`). -/
def sortByKey : List ConfigRow → List ConfigRow
  | [] => []
  | r :: rs => insertByKey r (sortByKey rs)

/-- Embeds `getAllConfiguration`: all rows `ORDER BY key`. -/
def getAllConfiguration (t : Table) : List ConfigRow :=
  sortByKey t

/-! ## Definitions: model of the JavaScript platform (numbers and dates)

The repository manipulates dates and numbers through the JS runtime
(`parseInt`, `new Date(string)`, `Date.prototype.toString`).  These platform
primitives are modelled here: a `Date` is its millisecond timestamp, the
process time zone is UTC, and the proleptic Gregorian calendar conversions
are implemented explicitly. -/

/-- Decimal digit character. -/
def digitChar (d : Nat) : Char :=
  if d = 0 then '0' else if d = 1 then '1' else if d = 2 then '2' else if d = 3 then '3'
  else if d = 4 then '4' else if d = 5 then '5' else if d = 6 then '6' else if d = 7 then '7'
  else if d = 8 then '8' else '9'

/-- Numeric value of a digit character. -/
def digitVal (c : Char) : Nat := c.toNat - 48

/-- Big-endian decimal digits of `n`; the first argument is structural fuel
(any fuel with `n < 10 ^ fuel` gives the digits). -/
def natToDigitsAux : Nat → Nat → List Char
  | 0, _ => []
  | fuel + 1, n =>
    if n < 10 then [digitChar n]
    else natToDigitsAux fuel (n / 10) ++ [digitChar (n % 10)]

/-- Big-endian decimal digits of `n` (nonempty; `0` prints as `"0"`). -/
def natToDigits (n : Nat) : List Char := natToDigitsAux (n + 1) n

/-- Value of a big-endian digit string. -/
def digitsVal (ds : List Char) : Nat := ds.foldl (fun a c => 10 * a + digitVal c) 0

/-- Digits of `n` left-padded with zeros to width 2 (JS date fields). -/
def pad2 (n : Nat) : List Char := [digitChar (n / 10 % 10), digitChar (n % 10)]

/-- Digits of `n` left-padded with zeros to width 4 (JS year field). -/
def pad4 (n : Nat) : List Char :=
  List.replicate (4 - (natToDigits n).length) '0' ++ natToDigits n

/-- Gregorian leap-year rule. -/
def isLeapYear (y : Int) : Bool :=
  (y % 4 == 0 && y % 100 != 0) || y % 400 == 0

/-- Days in month `m` (1-based). -/
def daysInMonth (leap : Bool) (m : Int) : Int :=
  if m = 1 then 31 else if m = 2 then (if leap then 29 else 28)
  else if m = 3 then 31 else if m = 4 then 30 else if m = 5 then 31
  else if m = 6 then 30 else if m = 7 then 31 else if m = 8 then 31
  else if m = 9 then 30 else if m = 10 then 31 else if m = 11 then 30 else 31

/-- Days from 0001-01-01 to January 1 of year `y` (proleptic Gregorian,
floor division so it is total over `Int`). -/
def daysBeforeYear (y : Int) : Int :=
  365 * (y - 1) + (y - 1) / 4 - (y - 1) / 100 + (y - 1) / 400

/-- Days from January 1 to the first of month `m` (1-based). -/
def daysBeforeMonth (leap : Bool) (m : Int) : Int :=
  match leap with
  | false =>
    if m = 1 then 0 else if m = 2 then 31 else if m = 3 then 59
    else if m = 4 then 90 else if m = 5 then 120 else if m = 6 then 151
    else if m = 7 then 181 else if m = 8 then 212 else if m = 9 then 243
    else if m = 10 then 273 else if m = 11 then 304 else 334
  | true =>
    if m = 1 then 0 else if m = 2 then 31 else if m = 3 then 60
    else if m = 4 then 91 else if m = 5 then 121 else if m = 6 then 152
    else if m = 7 then 182 else if m = 8 then 213 else if m = 9 then 244
    else if m = 10 then 274 else if m = 11 then 305 else 335

/-- Day number (days since 0001-01-01) of the civil date `(y, m, d)`. -/
def dayNumberOfYmd (y m d : Int) : Int :=
  daysBeforeYear y + daysBeforeMonth (isLeapYear y) m + (d - 1)

/-- Month and 1-based day for a 0-based day-of-year `doy ∈ [0, 364]`
(day 365 of a leap year is handled separately in `ymdOfDayNumber`). -/
def monthDayOfDoy (leap : Bool) (doy : Int) : Int × Int :=
  match leap with
  | false =>
    if doy < 31 then (1, doy + 1)
    else if doy < 59 then (2, doy - 30)
    else if doy < 90 then (3, doy - 58)
    else if doy < 120 then (4, doy - 89)
    else if doy < 151 then (5, doy - 119)
    else if doy < 181 then (6, doy - 150)
    else if doy < 212 then (7, doy - 180)
    else if doy < 243 then (8, doy - 211)
    else if doy < 273 then (9, doy - 242)
    else if doy < 304 then (10, doy - 272)
    else if doy < 334 then (11, doy - 303)
    else (12, doy - 333)
  | true =>
    if doy < 31 then (1, doy + 1)
    else if doy < 60 then (2, doy - 30)
    else if doy < 91 then (3, doy - 59)
    else if doy < 121 then (4, doy - 90)
    else if doy < 152 then (5, doy - 120)
    else if doy < 182 then (6, doy - 151)
    else if doy < 213 then (7, doy - 181)
    else if doy < 244 then (8, doy - 212)
    else if doy < 274 then (9, doy - 243)
    else if doy < 305 then (10, doy - 273)
    else if doy < 335 then (11, doy - 304)
    else (12, doy - 334)

/-- Civil date of a day number (inverse of `dayNumberOfYmd`), by the
century/quadrennium/year divmod decomposition of the 400-year cycle. -/
def ymdOfDayNumber (z : Int) : Int × Int × Int :=
  let n400 := z / 146097
  let n := z % 146097
  let n100 := n / 36524
  let r100 := n % 36524
  let n4 := r100 / 1461
  let r4 := r100 % 1461
  let n1 := r4 / 365
  let r1 := r4 % 365
  if n100 = 4 ∨ n1 = 4 then
    (400 * n400 + 100 * n100 + 4 * n4 + n1, 12, 31)
  else
    let y := 400 * n400 + 100 * n100 + 4 * n4 + n1 + 1
    let md := monthDayOfDoy (isLeapYear y) r1
    (y, md.1, md.2)

/-- Day number of 1970-01-01, the Unix epoch. -/
def epochDayNumber : Int := 719162

/-- Checks `f` on the `2 ^ d` naturals starting at `lo`, as a balanced
conjunction (kernel-reducible, unlike a linear fold). -/
def allUpTo (f : Nat → Bool) : Nat → Nat → Bool
  | 0, lo => f lo
  | d + 1, lo => allUpTo f d lo && allUpTo f d (lo + 2 ^ d)

/-- Bounded check used to certify `monthDayOfDoy` against `daysBeforeMonth`
on every day-of-year. -/
def mdGood (leap : Bool) (n : Nat) : Bool :=
  if 365 ≤ n then true
  else
    let md := monthDayOfDoy leap (n : Int)
    decide (daysBeforeMonth leap md.1 + (md.2 - 1) = (n : Int)) &&
      decide (1 ≤ md.1) && decide (md.1 ≤ 12) && decide (1 ≤ md.2) && decide (md.2 ≤ 31)

/-- Three-letter weekday name; day number 0 (0001-01-01) was a Monday. -/
def weekdayName (i : Int) : List Char :=
  if i = 0 then ['M', 'o', 'n'] else if i = 1 then ['T', 'u', 'e']
  else if i = 2 then ['W', 'e', 'd'] else if i = 3 then ['T', 'h', 'u']
  else if i = 4 then ['F', 'r', 'i'] else if i = 5 then ['S', 'a', 't']
  else ['S', 'u', 'n']

/-- Three-letter month name (1-based). -/
def monthName (m : Int) : List Char :=
  if m = 1 then ['J', 'a', 'n'] else if m = 2 then ['F', 'e', 'b']
  else if m = 3 then ['M', 'a', 'r'] else if m = 4 then ['A', 'p', 'r']
  else if m = 5 then ['M', 'a', 'y'] else if m = 6 then ['J', 'u', 'n']
  else if m = 7 then ['J', 'u', 'l'] else if m = 8 then ['A', 'u', 'g']
  else if m = 9 then ['S', 'e', 'p'] else if m = 10 then ['O', 'c', 't']
  else if m = 11 then ['N', 'o', 'v'] else ['D', 'e', 'c']

/-- Month number from a three-letter name. -/
def monthFromName (cs : List Char) : Option Int :=
  if cs = ['J', 'a', 'n'] then some 1 else if cs = ['F', 'e', 'b'] then some 2
  else if cs = ['M', 'a', 'r'] then some 3 else if cs = ['A', 'p', 'r'] then some 4
  else if cs = ['M', 'a', 'y'] then some 5 else if cs = ['J', 'u', 'n'] then some 6
  else if cs = ['J', 'u', 'l'] then some 7 else if cs = ['A', 'u', 'g'] then some 8
  else if cs = ['S', 'e', 'p'] then some 9 else if cs = ['O', 'c', 't'] then some 10
  else if cs = ['N', 'o', 'v'] then some 11 else if cs = ['D', 'e', 'c'] then some 12
  else none

/-- Year rendering in `Date.prototype.toString`: zero-padded to width 4,
with a sign for negative (astronomical) years. -/
def yearChars (y : Int) : List Char :=
  if y < 0 then '-' :: natToDigits (-y).toNat else pad4 y.toNat

/-- Fixed time-zone tail of `Date.prototype.toString` under UTC. -/
def jsTimeSuffix : List Char :=
  ['G', 'M', 'T', '+', '0', '0', '0', '0', ' ', '(', 'C', 'o', 'o', 'r', 'd', 'i', 'n',
   'a', 't', 'e', 'd', ' ', 'U', 'n', 'i', 'v', 'e', 'r', 's', 'a', 'l', ' ', 'T', 'i',
   'm', 'e', ')']

/-- Character content of `Date.prototype.toString` (UTC process time zone):
`"Www Mmm DD YYYY HH:MM:SS GMT+0000 (Coordinated Universal Time)"`.
Milliseconds are not rendered: the output has second precision. -/
def jsDateToChars (ms : Int) : List Char :=
  let z := ms / 86400000 + epochDayNumber
  let msod := ms % 86400000
  weekdayName (z % 7) ++ ' ' :: monthName (ymdOfDayNumber z).2.1 ++
    ' ' :: pad2 (ymdOfDayNumber z).2.2.toNat ++ ' ' :: yearChars (ymdOfDayNumber z).1 ++
    ' ' :: pad2 (msod / 3600000).toNat ++ ':' :: pad2 (msod % 3600000 / 60000).toNat ++
    ':' :: pad2 (msod % 60000 / 1000).toNat ++ ' ' :: jsTimeSuffix

/-- `Date.prototype.toString`. -/
def jsDateToString (ms : Int) : String := String.mk (jsDateToChars ms)

/-- First space-separated token and the remainder after the space. -/
def breakAtSpace : List Char → List Char × List Char
  | [] => ([], [])
  | c :: rest =>
    if c = ' ' then ([], rest)
    else
      let p := breakAtSpace rest
      (c :: p.1, p.2)

def allDigits (cs : List Char) : Bool := cs.all Char.isDigit

/-- Parses the (possibly signed) year token of the `toString` format. -/
def parseYearTok (cs : List Char) : Option Int :=
  match cs with
  | [] => none
  | c :: ds =>
    if c = '-' then
      if !ds.isEmpty && allDigits ds then some (-(digitsVal ds : Int)) else none
    else if allDigits (c :: ds) then some ((digitsVal (c :: ds) : Nat) : Int)
    else none

/-- Parses the `HH:MM:SS` token of the `toString` format. -/
def parseTimeTok (cs : List Char) : Option (Int × Int × Int) :=
  match cs with
  | [h1, h2, c1, m1, m2, c2, s1, s2] =>
    if c1 = ':' ∧ c2 = ':' ∧ h1.isDigit ∧ h2.isDigit ∧ m1.isDigit ∧ m2.isDigit ∧
        s1.isDigit ∧ s2.isDigit then
      some (((10 * digitVal h1 + digitVal h2 : Nat) : Int),
        ((10 * digitVal m1 + digitVal m2 : Nat) : Int),
        ((10 * digitVal s1 + digitVal s2 : Nat) : Int))
    else none
  | _ => none

/-- Parser for the `toString` date format (`new Date(dateObj.toString())`):
weekday token, month name, day, year and time, tolerant of the trailing
time-zone text. -/
def parseToStringFormat (cs : List Char) : Option Int :=
  let p1 := breakAtSpace cs
  let p2 := breakAtSpace p1.2
  let p3 := breakAtSpace p2.2
  let p4 := breakAtSpace p3.2
  let p5 := breakAtSpace p4.2
  if p1.1.isEmpty then none
  else
    match monthFromName p2.1 with
    | none => none
    | some m =>
      if !p3.1.isEmpty && allDigits p3.1 then
        match parseYearTok p4.1 with
        | none => none
        | some y =>
          match parseTimeTok p5.1 with
          | none => none
          | some t =>
            some ((dayNumberOfYmd y m (digitsVal p3.1 : Int) - epochDayNumber) * 86400000 +
              (t.1 * 3600 + t.2.1 * 60 + t.2.2) * 1000)
      else none

/-- Parser for ISO calendar-date strings `YYYY-MM-DD` (UTC midnight), with
calendar validation as performed by the JS `Date` ISO parser. -/
def isoParse (cs : List Char) : Option Int :=
  match cs with
  | [y1, y2, y3, y4, s1, mo1, mo2, s2, d1, d2] =>
    if s1 = '-' && s2 = '-' && y1.isDigit && y2.isDigit && y3.isDigit && y4.isDigit &&
        mo1.isDigit && mo2.isDigit && d1.isDigit && d2.isDigit then
      let y : Int := (digitsVal [y1, y2, y3, y4] : Nat)
      let m : Int := (digitsVal [mo1, mo2] : Nat)
      let d : Int := (digitsVal [d1, d2] : Nat)
      if 1 ≤ m ∧ m ≤ 12 ∧ 1 ≤ d ∧ d ≤ daysInMonth (isLeapYear y) m then
        some ((dayNumberOfYmd y m d - epochDayNumber) * 86400000)
      else none
    else none
  | _ => none

/-- Model of `new Date(string)` followed by the validity check: the formats
the program produces or stores (ISO calendar dates, `toString` output);
anything else is an invalid date. -/
def jsParseDate (s : String) : Option Int :=
  match isoParse s.data with
  | some v => some v
  | none => parseToStringFormat s.data

def isWhitespaceChar (c : Char) : Bool := c = ' ' || c = '\t' || c = '\n' || c = '\r'

/-- Model of `parseInt(s, 10)`: optional whitespace, optional sign, longest
digit run; `none` is JS `NaN`. -/
def jsParseInt (s : String) : Option Int :=
  let cs := s.data.dropWhile isWhitespaceChar
  match cs with
  | '-' :: rest =>
    let ds := rest.takeWhile Char.isDigit
    if ds.isEmpty then none else some (-(digitsVal ds : Int))
  | '+' :: rest =>
    let ds := rest.takeWhile Char.isDigit
    if ds.isEmpty then none else some ((digitsVal ds : Int))
  | _ =>
    let ds := cs.takeWhile Char.isDigit
    if ds.isEmpty then none else some ((digitsVal ds : Int))

def intToChars (n : Int) : List Char :=
  if n < 0 then '-' :: natToDigits (-n).toNat else natToDigits n.toNat

/-- Decimal rendering of an integer (JS `Number.prototype.toString` on the
integers this program produces). -/
def intToString (n : Int) : String := String.mk (intToChars n)

/-! ## Definitions: configuration schema and service
(`Configuration.ts`, `ConfigurationService.ts`) -/

/-- A JS number as produced by this code's `parseInt` paths: an integer or
`NaN`. -/
inductive JsNum where
  | nan : JsNum
  | int (n : Int) : JsNum
deriving DecidableEq, Repr

def jsNumToString : JsNum → String
  | JsNum.nan => "NaN"
  | JsNum.int n => intToString n

def jsParseIntNum (s : String) : JsNum :=
  match jsParseInt s with
  | none => JsNum.nan
  | some n => JsNum.int n

/-- The `startDate` field value: a raw string before schema decoding (as in
`DEFAULT_CONFIG`), or a decoded JS `Date` (its timestamp). -/
inductive DateField where
  | str (s : String) : DateField
  | date (ms : Int) : DateField
deriving DecidableEq, Repr

/-- `toString()` of a `startDate` field value. -/
def dateFieldRawString : DateField → String
  | DateField.str s => s
  | DateField.date ms => jsDateToString ms

structure ThetaDataConfig where
  baseUrl : String
  maxConcurrentRequests : JsNum
deriving DecidableEq, Repr

structure ProcessingConfig where
  startDate : DateField
  outputDirectory : String
  tempDirectory : String
deriving DecidableEq, Repr

structure DatabaseConfig where
  path : String
deriving DecidableEq, Repr

structure AppConfig where
  thetaData : ThetaDataConfig
  processing : ProcessingConfig
  database : DatabaseConfig
deriving DecidableEq, Repr

/-- `DEFAULT_CONFIG` from `Configuration.ts` (input format: the start date
is a raw string). -/
def DEFAULT_CONFIG : AppConfig :=
  { thetaData :=
      { baseUrl := "http://localhost:25510"
        maxConcurrentRequests := JsNum.int 4 }
    processing :=
      { startDate := DateField.str "2024-01-01"
        outputDirectory := "./data/parquet"
        tempDirectory := "./data/temp" }
    database := { path := "./data/spx-pipeline.db" } }

def stripPre : List Char → List Char → Option (List Char)
  | [], cs => some cs
  | _ :: _, [] => none
  | p :: ps, c :: cs => if c = p then stripPre ps cs else none

/-- `s.startsWith p` (computable model of the String primitive). -/
def strStartsWith (s p : String) : Bool := (stripPre p.data s.data).isSome

/-- `s.endsWith post` (computable model of the String primitive). -/
def strEndsWith (s post : String) : Bool :=
  decide (post.data.length ≤ s.data.length) &&
    s.data.drop (s.data.length - post.data.length) == post.data

/-- The regex `^https?:\/\/.+$` of the `baseUrl` schema: scheme literal,
then at least one character, none of which is a newline (`.` does not match
newlines). -/
def matchesUrlPattern (s : String) : Bool :=
  (match stripPre ['h', 't', 't', 'p', ':', '/', '/'] s.data with
   | some t => !t.isEmpty && t.all (fun c => c ≠ '\n')
   | none => false) ||
  (match stripPre ['h', 't', 't', 'p', 's', ':', '/', '/'] s.data with
   | some t => !t.isEmpty && t.all (fun c => c ≠ '\n')
   | none => false)

/-- Embeds `validateThetaDataUrl` (`Schema.decodeUnknown` of the `baseUrl`
schema). -/
def validateThetaDataUrl (s : String) : Except String String :=
  if matchesUrlPattern s then Except.ok s
  else Except.error "Expected a string matching the pattern ^https?://.+$"

/-- Embeds `validateDate` (`Schema.DateFromString`): the string must parse
to a valid `Date`. -/
def validateDate (s : String) : Except String Int :=
  match jsParseDate s with
  | some ms => Except.ok ms
  | none => Except.error "Expected a valid date string"

/-- Embeds `validateDirectoryPath` (`Schema.String` with `minLength 1`). -/
def validateDirectoryPath (s : String) : Except String String :=
  if 1 ≤ s.length then Except.ok s
  else Except.error "Expected a string of at least length 1"

/-- Embeds `validateDatabasePath` (`minLength 1` and the pattern
`\.db$`). -/
def validateDatabasePath (s : String) : Except String String :=
  if 1 ≤ s.length ∧ strEndsWith s ".db" then Except.ok s
  else Except.error "Expected a string of at least length 1 matching the pattern \\.db$"

/-- The error taxonomy of `ConfigurationError.ts`. -/
inductive ConfigError where
  | validation (key value reason : String) : ConfigError
  | notFound (key : String) : ConfigError
  | persistence (operation : String) : ConfigError
  | connection (path : String) : ConfigError
deriving DecidableEq, Repr

/-- `fromSchemaError`: a schema failure becomes a `ConfigurationValidationError`
for the given key and raw value (the `TreeFormatter` text is the reason). -/
def fromSchemaError (key value reason : String) : ConfigError :=
  ConfigError.validation key value reason

/-- The six fixed keys of `ConfigKeys`. -/
def keyBaseUrl : String := "thetadata.baseUrl"

def keyMaxConcurrent : String := "thetadata.maxConcurrentRequests"

def keyStartDate : String := "processing.startDate"

def keyOutputDir : String := "processing.outputDirectory"

def keyTempDir : String := "processing.tempDirectory"

def keyDbPath : String := "database.path"

def configKeys : List String :=
  [keyBaseUrl, keyMaxConcurrent, keyStartDate, keyOutputDir, keyTempDir, keyDbPath]

/-- Embeds `validateByKey`: the `switch` over the six known keys, with the
`parseInt`-based check for `maxConcurrentRequests` and an unknown-key
failure in the `default` branch. -/
def validateByKey (key value : String) : Except ConfigError Unit :=
  if key = keyBaseUrl then
    match validateThetaDataUrl value with
    | Except.ok _ => Except.ok ()
    | Except.error r => Except.error (fromSchemaError key value r)
  else if key = keyStartDate then
    match validateDate value with
    | Except.ok _ => Except.ok ()
    | Except.error r => Except.error (fromSchemaError key value r)
  else if key = keyOutputDir ∨ key = keyTempDir then
    match validateDirectoryPath value with
    | Except.ok _ => Except.ok ()
    | Except.error r => Except.error (fromSchemaError key value r)
  else if key = keyDbPath then
    match validateDatabasePath value with
    | Except.ok _ => Except.ok ()
    | Except.error r => Except.error (fromSchemaError key value r)
  else if key = keyMaxConcurrent then
    match jsParseInt value with
    | none => Except.error (ConfigError.validation key value "Must be a number between 1 and 10")
    | some n =>
      if n < 1 ∨ 10 < n then
        Except.error (ConfigError.validation key value "Must be a number between 1 and 10")
      else Except.ok ()
  else Except.error (ConfigError.validation key value "Unknown configuration key")

/-- Embeds `serializeConfig`: the flat key-value object, in the source's
field order; numbers and dates are rendered with `toString()`. -/
def serializeConfig (c : AppConfig) : List (String × String) :=
  [(keyBaseUrl, c.thetaData.baseUrl),
   (keyMaxConcurrent, jsNumToString c.thetaData.maxConcurrentRequests),
   (keyStartDate, dateFieldRawString c.processing.startDate),
   (keyOutputDir, c.processing.outputDirectory),
   (keyTempDir, c.processing.tempDirectory),
   (keyDbPath, c.database.path)]

/-- JS `a || b` on a possibly-absent string property: the default is used
when the property is missing or the empty string (falsy). -/
def jsOr (o : Option String) (dflt : String) : String :=
  match o with
  | some v => if v = "" then dflt else v
  | none => dflt

/-- Embeds `validateConfiguration = Schema.decodeUnknown(AppConfig)`:
field-order first-failure validation; `startDate` is decoded from a string
to a `Date` (a `Date` object where a string is expected is a decode
failure). -/
def validateConfiguration (c : AppConfig) : Except String AppConfig :=
  if ¬ matchesUrlPattern c.thetaData.baseUrl then
    Except.error "thetaData.baseUrl: expected a string matching the pattern ^https?://.+$"
  else
    match c.thetaData.maxConcurrentRequests with
    | JsNum.nan => Except.error "thetaData.maxConcurrentRequests: expected an integer"
    | JsNum.int n =>
      if n < 1 ∨ 10 < n then
        Except.error "thetaData.maxConcurrentRequests: expected a number between 1 and 10"
      else
        match c.processing.startDate with
        | DateField.date _ => Except.error "processing.startDate: expected a string"
        | DateField.str s =>
          match jsParseDate s with
          | none => Except.error "processing.startDate: expected a valid date string"
          | some ms =>
            if c.processing.outputDirectory.length < 1 then
              Except.error "processing.outputDirectory: expected a string of at least length 1"
            else if c.processing.tempDirectory.length < 1 then
              Except.error "processing.tempDirectory: expected a string of at least length 1"
            else if ¬ (1 ≤ c.database.path.length ∧ strEndsWith c.database.path ".db") then
              Except.error "database.path: expected a string of at least length 1 matching \\.db$"
            else
              Except.ok
                { c with processing := { c.processing with startDate := DateField.date ms } }

/-- Rendering of a config object used as the error `value`
(`JSON.stringify` modelled as a field-by-field rendering). -/
def configJson (c : AppConfig) : String :=
  c.thetaData.baseUrl ++ "|" ++ jsNumToString c.thetaData.maxConcurrentRequests ++ "|" ++
    dateFieldRawString c.processing.startDate ++ "|" ++ c.processing.outputDirectory ++ "|" ++
    c.processing.tempDirectory ++ "|" ++ c.database.path

/-- The `configObject` built inside `deserializeConfig`: flat data merged
over `DEFAULT_CONFIG` key by key with `||`. -/
def mergedCandidate (dataM : List (String × String)) : AppConfig :=
  { thetaData :=
      { baseUrl := jsOr (dataM.lookup keyBaseUrl) DEFAULT_CONFIG.thetaData.baseUrl
        maxConcurrentRequests :=
          jsParseIntNum (jsOr (dataM.lookup keyMaxConcurrent)
            (jsNumToString DEFAULT_CONFIG.thetaData.maxConcurrentRequests)) }
    processing :=
      { startDate :=
          DateField.str (jsOr (dataM.lookup keyStartDate)
            (dateFieldRawString DEFAULT_CONFIG.processing.startDate))
        outputDirectory :=
          jsOr (dataM.lookup keyOutputDir) DEFAULT_CONFIG.processing.outputDirectory
        tempDirectory :=
          jsOr (dataM.lookup keyTempDir) DEFAULT_CONFIG.processing.tempDirectory }
    database := { path := jsOr (dataM.lookup keyDbPath) DEFAULT_CONFIG.database.path } }

/-- Embeds `deserializeConfig`: merge the flat data over `DEFAULT_CONFIG`
key by key with `||`, then run full schema validation. -/
def deserializeConfig (dataM : List (String × String)) : Except ConfigError AppConfig :=
  match validateConfiguration (mergedCandidate dataM) with
  | Except.ok c => Except.ok c
  | Except.error r =>
    Except.error (fromSchemaError "config" (configJson (mergedCandidate dataM)) r)

/-- JS object assignment `acc[key] = value` on a string-keyed object
represented as an association list. -/
def objSet (m : List (String × String)) (k v : String) : List (String × String) :=
  if m.any (fun p => p.1 == k) then m.map (fun p => if p.1 == k then (k, v) else p)
  else m ++ [(k, v)]

/-- The `reduce` in `getFullConfiguration`/`validateFullConfiguration`:
records folded into one flat object. -/
def recordsToMap (rs : List ConfigRow) : List (String × String) :=
  rs.foldl (fun m r => objSet m r.key r.value) []

/-- Embeds `getFullConfiguration`: read all records; with no records return
`DEFAULT_CONFIG` directly, otherwise deserialize (merge + validate). -/
def getFullConfiguration (t : Table) : Except ConfigError AppConfig :=
  let configData := recordsToMap (getAllConfiguration t)
  if configData.isEmpty then Except.ok DEFAULT_CONFIG
  else deserializeConfig configData

/-- Embeds `setConfigurationValue`: per-key validation, then the repository
upsert; a validation failure leaves the table untouched. -/
def setConfigurationValue (now key value : String) (t : Table) :
    Table × Except ConfigError Unit :=
  match validateByKey key value with
  | Except.error e => (t, Except.error e)
  | Except.ok _ => (setConfiguration now key value t, Except.ok ())

/-- Embeds `validateFullConfiguration`: the same assembly as `getFull`
without the empty-table shortcut, followed by a second validation pass. -/
def validateFullConfiguration (t : Table) : Except ConfigError AppConfig :=
  let configData := recordsToMap (getAllConfiguration t)
  match deserializeConfig configData with
  | Except.error e => Except.error e
  | Except.ok config =>
    match validateConfiguration config with
    | Except.ok c => Except.ok c
    | Except.error r => Except.error (fromSchemaError "fullConfig" (configJson config) r)

/-- The per-key field rule of §4.1: URL pattern, parseable date, non-empty
string, `.db`-suffixed string, `parseInt` result in `[1, 10]`.  `false` for
keys outside the six. -/
def fieldRule (k v : String) : Bool :=
  if k = keyBaseUrl then matchesUrlPattern v
  else if k = keyStartDate then (jsParseDate v).isSome
  else if k = keyOutputDir ∨ k = keyTempDir then decide (1 ≤ v.length)
  else if k = keyDbPath then decide (1 ≤ v.length) && strEndsWith v ".db"
  else if k = keyMaxConcurrent then
    match jsParseInt v with
    | none => false
    | some n => decide (1 ≤ n ∧ n ≤ 10)
  else false

/-- The typed configuration that `DEFAULT_CONFIG` decodes to: identical
except that the start date is the parsed `Date` for `"2024-01-01"`
(1704067200000 ms). -/
def decodedDefaultConfig : AppConfig :=
  { thetaData := DEFAULT_CONFIG.thetaData
    processing :=
      { startDate := DateField.date 1704067200000
        outputDirectory := DEFAULT_CONFIG.processing.outputDirectory
        tempDirectory := DEFAULT_CONFIG.processing.tempDirectory }
    database := DEFAULT_CONFIG.database }

/-- A valid typed configuration object (§8's "valid configuration"): every
schema field rule holds and the start date is a decoded JS `Date` (a
representable timestamp). -/
def validTypedConfig (c : AppConfig) : Prop :=
  matchesUrlPattern c.thetaData.baseUrl = true ∧
  (∃ n, c.thetaData.maxConcurrentRequests = JsNum.int n ∧ 1 ≤ n ∧ n ≤ 10) ∧
  (∃ ms, c.processing.startDate = DateField.date ms ∧ ms.natAbs ≤ 8640000000000000) ∧
  1 ≤ c.processing.outputDirectory.length ∧
  1 ≤ c.processing.tempDirectory.length ∧
  1 ≤ c.database.path.length ∧ strEndsWith c.database.path ".db" = true

/-- The default configuration with a start date 123 ms past midnight
(2024-01-01T00:00:00.123Z): a valid typed configuration with fractional
seconds. -/
def fracSecondConfig : AppConfig :=
  { thetaData := DEFAULT_CONFIG.thetaData
    processing :=
      { startDate := DateField.date 1704067200123
        outputDirectory := DEFAULT_CONFIG.processing.outputDirectory
        tempDirectory := DEFAULT_CONFIG.processing.tempDirectory }
    database := DEFAULT_CONFIG.database }

/-! ## Definitions: cross-field validation (`ConfigurationValidation.ts`) -/

def splitSegsAux : List Char → List Char → List String
  | [], acc => [String.mk acc.reverse]
  | c :: rest, acc =>
    if c = '/' then String.mk acc.reverse :: splitSegsAux rest []
    else splitSegsAux rest (c :: acc)

/-- `s.splitOn "/"`. -/
def splitOnSlash (s : String) : List String := splitSegsAux s.data []

/-- `String.intercalate "/"`. -/
def joinWithSlash : List String → String
  | [] => ""
  | [s] => s
  | s :: rest => s ++ "/" ++ joinWithSlash rest

/-- POSIX path normalization over segments (`.` and empty segments dropped,
`..` pops, never above the root). -/
def normSegments (segs : List String) : List String :=
  segs.foldl
    (fun acc seg =>
      if seg = "" || seg = "." then acc
      else if seg = ".." then acc.dropLast
      else acc ++ [seg])
    []

/-- `path.resolve` against the process working directory (`cwd` absolute). -/
def resolvePath (cwd p : String) : String :=
  let full := if strStartsWith p "/" then p else cwd ++ "/" ++ p
  "/" ++ joinWithSlash (normSegments (splitOnSlash full))

/-- `path.dirname` of a normalized absolute path. -/
def dirname (p : String) : String :=
  let segs := (splitOnSlash p).filter (fun s => s ≠ "")
  if segs.length ≤ 1 then "/" else "/" ++ joinWithSlash segs.dropLast

/-- `new Date("2020-01-01")`, the epoch floor of the start-date rule. -/
def minStartDate : Int := 1577836800000

/-- `startDate > today` for the decoded field; JS comparison of a string
with a number is false both ways (NaN coercion), matching the `.str`
branch. -/
def dateRightOf (f : DateField) (t : Int) : Bool :=
  match f with
  | DateField.date ms => decide (t < ms)
  | DateField.str _ => false

/-- `startDate < minDate`, same conventions. -/
def dateLeftOf (f : DateField) (t : Int) : Bool :=
  match f with
  | DateField.date ms => decide (ms < t)
  | DateField.str _ => false

/-- `toISOString().split('T')[0]` of the start date (used in error values). -/
def startDateIsoString : DateField → String
  | DateField.date ms =>
    let z := ms / 86400000 + epochDayNumber
    String.mk (pad4 (ymdOfDayNumber z).1.toNat ++ '-' :: pad2 (ymdOfDayNumber z).2.1.toNat ++
      '-' :: pad2 (ymdOfDayNumber z).2.2.toNat)
  | DateField.str s => s

/-- Embeds `validateCrossFieldRules`: output/temp resolved-path inequality,
the `startsWith` containment test of the database parent directory against
the temp directory, and the two start-date clock rules (`today` is local
midnight of `now`; the process time zone is UTC). -/
def validateCrossFieldRules (now : Int) (cwd : String) (c : AppConfig) :
    Except ConfigError AppConfig :=
  let outputAbsolute := resolvePath cwd c.processing.outputDirectory
  let tempAbsolute := resolvePath cwd c.processing.tempDirectory
  if outputAbsolute = tempAbsolute then
    Except.error (ConfigError.validation "processing"
      ("outputDirectory=" ++ outputAbsolute ++ ";tempDirectory=" ++ tempAbsolute)
      "Output directory and temp directory must be different")
  else
    let dbDir := dirname (resolvePath cwd c.database.path)
    if strStartsWith dbDir tempAbsolute then
      Except.error (ConfigError.validation "database.path" c.database.path
        "Database should not be stored in temporary directory")
    else
      let today := now - now % 86400000
      if dateRightOf c.processing.startDate today then
        Except.error (ConfigError.validation "processing.startDate"
          (startDateIsoString c.processing.startDate) "Start date cannot be in the future")
      else if dateLeftOf c.processing.startDate minStartDate then
        Except.error (ConfigError.validation "processing.startDate"
          (startDateIsoString c.processing.startDate) "Start date cannot be before 2020-01-01")
      else Except.ok c

/-! ## Theorems -/

/-! Calendar sanity checks and the day-number round trip. -/

example : ymdOfDayNumber 738885 = (2024, 1, 1) := by decide
example : dayNumberOfYmd 2024 1 1 = 738885 := by decide
example : ymdOfDayNumber 719162 = (1970, 1, 1) := by decide
example : ymdOfDayNumber 146096 = (400, 12, 31) := by decide
example : ymdOfDayNumber 730178 = (2000, 2, 29) := by decide
example : ymdOfDayNumber (-1) = (0, 12, 31) := by decide

theorem allUpTo_sound (f : Nat → Bool) :
    ∀ d lo, allUpTo f d lo = true → ∀ i, i < 2 ^ d → f (lo + i) = true := by
  intro d
  induction d with
  | zero =>
    intro lo h i hi
    have hz : i = 0 := by omega
    subst hz
    simpa [allUpTo] using h
  | succ d ih =>
    intro lo h i hi
    rw [allUpTo, Bool.and_eq_true] at h
    by_cases hc : i < 2 ^ d
    · exact ih lo h.1 i hc
    · have hp : 2 ^ (d + 1) = 2 ^ d + 2 ^ d := by ring
      have h2 : i - 2 ^ d < 2 ^ d := by omega
      have h3 := ih (lo + 2 ^ d) h.2 (i - 2 ^ d) h2
      have he : lo + 2 ^ d + (i - 2 ^ d) = lo + i := by omega
      rwa [he] at h3

theorem mdGood_all_false : allUpTo (mdGood false) 9 0 = true := by decide

theorem mdGood_all_true : allUpTo (mdGood true) 9 0 = true := by decide

theorem monthDay_doy_inverse (leap : Bool) (doy m d : Int) (h0 : 0 ≤ doy) (h1 : doy ≤ 364)
    (hmd : monthDayOfDoy leap doy = (m, d)) :
    daysBeforeMonth leap m + (d - 1) = doy ∧ 1 ≤ m ∧ m ≤ 12 ∧ 1 ≤ d ∧ d ≤ 31 := by
  have hn : ((doy.toNat : Int)) = doy := by omega
  have hcheck : mdGood leap doy.toNat = true := by
    have hlt : doy.toNat < 2 ^ 9 := by
      have : (2 : Nat) ^ 9 = 512 := by norm_num
      omega
    have := allUpTo_sound (mdGood leap) 9 0
      (by cases leap
          · exact mdGood_all_false
          · exact mdGood_all_true)
      doy.toNat hlt
    simpa using this
  rw [mdGood] at hcheck
  have hnot : ¬ 365 ≤ doy.toNat := by omega
  rw [if_neg hnot] at hcheck
  simp only [hn, hmd, Bool.and_eq_true, decide_eq_true_eq] at hcheck
  exact ⟨hcheck.1.1.1.1, hcheck.1.1.1.2, hcheck.1.1.2, hcheck.1.2, hcheck.2⟩

theorem dayNumber_ymd_roundtrip (z y m d : Int) (h : ymdOfDayNumber z = (y, m, d)) :
    dayNumberOfYmd y m d = z := by
  simp only [ymdOfDayNumber] at h
  split_ifs at h with hspec
  · -- Dec 31 of a year closing a quadrennium or the 400-year cycle.
    simp only [Prod.mk.injEq] at h
    obtain ⟨hy, hm, hd⟩ := h
    subst hy
    subst hm
    subst hd
    have hleap : isLeapYear (400 * (z / 146097) + 100 * (z % 146097 / 36524) +
        4 * (z % 146097 % 36524 / 1461) + z % 146097 % 36524 % 1461 / 365) = true := by
      simp only [isLeapYear, Bool.or_eq_true, Bool.and_eq_true, beq_iff_eq, bne_iff_ne,
        ne_eq, decide_eq_true_eq]
      rcases hspec with hc | hc <;> omega
    rw [dayNumberOfYmd, hleap]
    norm_num [daysBeforeMonth]
    rw [daysBeforeYear]
    rcases hspec with hc | hc
    · -- last day of the 400-year cycle
      have e1 : z % 146097 = 146096 := by omega
      have d4 : (400 * (z / 146097) + 100 * (z % 146097 / 36524) +
          4 * (z % 146097 % 36524 / 1461) + z % 146097 % 36524 % 1461 / 365 - 1) / 4 =
          100 * (z / 146097) + 99 := by omega
      have d100 : (400 * (z / 146097) + 100 * (z % 146097 / 36524) +
          4 * (z % 146097 % 36524 / 1461) + z % 146097 % 36524 % 1461 / 365 - 1) / 100 =
          4 * (z / 146097) + 3 := by omega
      have d400 : (400 * (z / 146097) + 100 * (z % 146097 / 36524) +
          4 * (z % 146097 % 36524 / 1461) + z % 146097 % 36524 % 1461 / 365 - 1) / 400 =
          z / 146097 := by omega
      omega
    · -- last day (day 1461) of a 1461-day quadrennium
      have e1 : z % 146097 % 36524 % 1461 = 1460 := by omega
      have hb : z % 146097 / 36524 ≤ 3 := by omega
      have hf : z % 146097 % 36524 / 1461 ≤ 23 := by omega
      have d4 : (400 * (z / 146097) + 100 * (z % 146097 / 36524) +
          4 * (z % 146097 % 36524 / 1461) + z % 146097 % 36524 % 1461 / 365 - 1) / 4 =
          100 * (z / 146097) + 25 * (z % 146097 / 36524) + z % 146097 % 36524 / 1461 := by
        omega
      have d100 : (400 * (z / 146097) + 100 * (z % 146097 / 36524) +
          4 * (z % 146097 % 36524 / 1461) + z % 146097 % 36524 % 1461 / 365 - 1) / 100 =
          4 * (z / 146097) + z % 146097 / 36524 := by omega
      have d400 : (400 * (z / 146097) + 100 * (z % 146097 / 36524) +
          4 * (z % 146097 % 36524 / 1461) + z % 146097 % 36524 % 1461 / 365 - 1) / 400 =
          z / 146097 := by omega
      omega
  · -- Generic day inside a year.
    have hr1 : 0 ≤ z % 146097 % 36524 % 1461 % 365 ∧ z % 146097 % 36524 % 1461 % 365 ≤ 364 := by
      omega
    obtain ⟨m0, d0, hmd⟩ : ∃ m0 d0, monthDayOfDoy
        (isLeapYear (400 * (z / 146097) + 100 * (z % 146097 / 36524) +
          4 * (z % 146097 % 36524 / 1461) + z % 146097 % 36524 % 1461 / 365 + 1))
        (z % 146097 % 36524 % 1461 % 365) = (m0, d0) :=
      ⟨_, _, rfl⟩
    have hinv := monthDay_doy_inverse _ _ _ _ hr1.1 hr1.2 hmd
    rw [hmd] at h
    simp only [Prod.mk.injEq] at h
    obtain ⟨hy, hm, hd⟩ := h
    subst hy
    subst hm
    subst hd
    simp only [dayNumberOfYmd, daysBeforeYear]
    have hb : z % 146097 / 36524 ≤ 3 := by omega
    have hf : z % 146097 % 36524 / 1461 ≤ 24 := by omega
    have hg : z % 146097 % 36524 % 1461 / 365 ≤ 3 := by omega
    have d4 : (400 * (z / 146097) + 100 * (z % 146097 / 36524) +
        4 * (z % 146097 % 36524 / 1461) + z % 146097 % 36524 % 1461 / 365 + 1 - 1) / 4 =
        100 * (z / 146097) + 25 * (z % 146097 / 36524) + z % 146097 % 36524 / 1461 := by
      omega
    have d100 : (400 * (z / 146097) + 100 * (z % 146097 / 36524) +
        4 * (z % 146097 % 36524 / 1461) + z % 146097 % 36524 % 1461 / 365 + 1 - 1) / 100 =
        4 * (z / 146097) + z % 146097 / 36524 := by omega
    have d400 : (400 * (z / 146097) + 100 * (z % 146097 / 36524) +
        4 * (z % 146097 % 36524 / 1461) + z % 146097 % 36524 % 1461 / 365 + 1 - 1) / 400 =
        z / 146097 := by omega
    omega

/-! Helper lemmas about `List.lookup` on association lists. -/

theorem lookup_append_of_none {β : Type} {l₁ l₂ : List (String × β)} {k : String}
    (h : l₁.lookup k = none) : (l₁ ++ l₂).lookup k = l₂.lookup k := by
  induction l₁ with
  | nil => rfl
  | cons p t ih =>
    rw [List.lookup] at h
    rw [List.cons_append, List.lookup]
    cases hb : (k == p.1) with
    | true => rw [hb] at h; exact absurd h (by simp)
    | false => rw [hb] at h; exact ih h

/-- C1. SAFE_INIT on a database whose known table holds data: it succeeds
(no error is even possible in this code path), reports `created = []` and
`skipped = ["configuration"]` (the data-holding known table), changes the
database not at all — so every existing table keeps its exact row count and
no table is created — and iterating it 10 times is still the identity, so a
populated table's row count is never reduced. -/
theorem safeInit_preserves_populated_tables (db : Database)
    (h : 0 < (lookupTable db "configuration").getD 0) :
    initTablesIfNeeded db = (db, { created := [], skipped := ["configuration"] }) ∧
    (∀ t, lookupTable (initTablesIfNeeded db).1 t = lookupTable db t) ∧
    (fun d => (initTablesIfNeeded d).1)^[10] db = db := by
  obtain ⟨c, hc⟩ : ∃ c, lookupTable db "configuration" = some c := by
    cases h' : lookupTable db "configuration" with
    | none => rw [h'] at h; simp at h
    | some c => exact ⟨c, rfl⟩
  rw [hc] at h
  simp only [Option.getD_some] at h
  have hmain : initTablesIfNeeded db = (db, { created := [], skipped := ["configuration"] }) := by
    simp [initTablesIfNeeded, getDatabaseStatus, knownTables, checkTableStatus, hc, h]
  refine ⟨hmain, fun t => by rw [hmain], ?_⟩
  exact Function.iterate_fixed (by rw [hmain]) 10

/-- Witness for C1 at a concrete populated database. -/
theorem safeInit_preserves_populated_tables_witness :
    0 < (lookupTable { tables := [("configuration", 3)] } "configuration").getD 0 ∧
    initTablesIfNeeded { tables := [("configuration", 3)] } =
      ({ tables := [("configuration", 3)] }, { created := [], skipped := ["configuration"] }) :=
  ⟨by decide,
    (safeInit_preserves_populated_tables { tables := [("configuration", 3)] } (by decide)).1⟩

/-- C2 (the code contradicts this claim and its own tests): running the
force-init command *with* the confirmation flag on a database whose
`configuration` table exists (here with 5 rows) does not drop and recreate
anything — `forceInitializeAllTables` fails with its internal
"requires explicit confirmation" error whenever any table exists, and the
database is left exactly as it was, rows intact. -/
theorem forceInit_with_confirmation_fails_on_existing_tables :
    databaseForceInitCommand true { tables := [("configuration", 5)] } =
      ({ tables := [("configuration", 5)] }, Except.error forceInitInternalMessage) := rfl

/-- C3. FORCE_INIT without the confirmation flag fails immediately with the
explanatory confirmation-required error and performs no action: the returned
database is the input database, whatever it was. -/
theorem forceInit_without_confirmation_no_action (db : Database) :
    databaseForceInitCommand false db = (db, Except.error forceConfirmMessage) := rfl

/-- C7. SAFE_INIT on a fresh database (no known table exists) creates exactly
the known tables — the new state is the old one plus an empty
`configuration` table — and reports them all in `created`; running it again
immediately afterwards is a no-op reporting empty `created` and `skipped`. -/
theorem safeInit_fresh_then_idempotent (db : Database)
    (h : lookupTable db "configuration" = none) :
    initTablesIfNeeded db =
      ({ tables := db.tables ++ [("configuration", 0)] },
        { created := ["configuration"], skipped := [] }) ∧
    initTablesIfNeeded (initTablesIfNeeded db).1 =
      ((initTablesIfNeeded db).1, { created := [], skipped := [] }) := by
  have h' : List.lookup "configuration" db.tables = none := h
  have hmain : initTablesIfNeeded db =
      ({ tables := db.tables ++ [("configuration", 0)] },
        { created := ["configuration"], skipped := [] }) := by
    simp [initTablesIfNeeded, getDatabaseStatus, knownTables, checkTableStatus,
      createConfigurationTable, lookupTable, h']
  refine ⟨hmain, ?_⟩
  rw [hmain]
  have h2 : lookupTable { tables := db.tables ++ [("configuration", 0)] } "configuration" =
      some 0 := by
    show (db.tables ++ [("configuration", 0)]).lookup "configuration" = some 0
    rw [lookup_append_of_none h]
    rfl
  simp [initTablesIfNeeded, getDatabaseStatus, knownTables, checkTableStatus, h2]

/-- Witness for C7 at a concrete fresh database. -/
theorem safeInit_fresh_then_idempotent_witness :
    lookupTable { tables := [] } "configuration" = none ∧
    initTablesIfNeeded { tables := [] } =
      ({ tables := [("configuration", 0)] }, { created := ["configuration"], skipped := [] }) :=
  ⟨by decide, (safeInit_fresh_then_idempotent { tables := [] } (by decide)).1⟩

/-- C10. The upsert touches at most the row whose key is `k`: every row of
the prior table with a different key is still present, identical (same
value, same `updated_at`), and every row of the new table with a different
key was already there. -/
theorem setConfiguration_frame (now k v : String) (t : Table) :
    (∀ r, r ∈ t → r.key ≠ k → r ∈ setConfiguration now k v t) ∧
    (∀ r, r ∈ setConfiguration now k v t → r.key ≠ k → r ∈ t) := by
  constructor
  · intro r hr hk
    unfold setConfiguration
    by_cases hany : t.any (fun r => r.key == k)
    · rw [if_pos hany]
      have := List.mem_map_of_mem
        (fun r : ConfigRow => if r.key == k then { key := k, value := v, updated_at := now } else r) hr
      simpa [hk] using this
    · rw [if_neg hany]
      exact List.mem_append_left _ hr
  · intro r hr hk
    unfold setConfiguration at hr
    by_cases hany : t.any (fun r => r.key == k)
    · rw [if_pos hany] at hr
      obtain ⟨a, ha, hfa⟩ := List.mem_map.mp hr
      by_cases hak : a.key == k
      · rw [if_pos hak] at hfa
        rw [← hfa] at hk
        simp at hk
      · rw [if_neg hak] at hfa
        rwa [← hfa]
    · rw [if_neg hany] at hr
      rcases List.mem_append.mp hr with h | h
      · exact h
      · simp at h
        rw [h] at hk
        simp at hk

/-- Witness for C10 on a concrete two-row table. -/
theorem setConfiguration_frame_witness :
    ({ key := "a", value := "1", updated_at := "t0" } : ConfigRow) ∈
      setConfiguration "t1" "b" "9" [{ key := "a", value := "1", updated_at := "t0" },
        { key := "b", value := "2", updated_at := "t0" }] :=
  (setConfiguration_frame "t1" "b" "9"
      [{ key := "a", value := "1", updated_at := "t0" },
        { key := "b", value := "2", updated_at := "t0" }]).1
    { key := "a", value := "1", updated_at := "t0" } (by decide) (by decide)

/-- C4. `getFull()` on an empty table returns exactly `DEFAULT_CONFIG`; and
on the table produced by `setValue("database.path", "./x.db")` (whatever the
write timestamp), it returns the schema-validated merge: `database.path` is
`"./x.db"` and every other field is its default (the start date being the
decoded default date). -/
theorem getFull_defaults_and_merge :
    getFullConfiguration [] = Except.ok DEFAULT_CONFIG ∧
    ∀ now : String,
      getFullConfiguration (setConfigurationValue now keyDbPath "./x.db" []).1 =
        Except.ok
          { thetaData := decodedDefaultConfig.thetaData
            processing := decodedDefaultConfig.processing
            database := { path := "./x.db" } } :=
  ⟨rfl, fun _ => rfl⟩

/-- C5. For each of the six known keys, a value violating that key's field
rule makes `setValue` fail with a `ValidationError` naming that key and
carrying that value, and the table is returned unchanged; for any key
outside the six, `setValue` fails with the unknown-key `ValidationError`
before touching the repository. -/
theorem setValue_rejects_invalid (now k v : String) (t : Table) :
    (k ∈ configKeys → fieldRule k v = false →
      ∃ r, setConfigurationValue now k v t = (t, Except.error (ConfigError.validation k v r))) ∧
    (k ∉ configKeys →
      setConfigurationValue now k v t =
        (t, Except.error (ConfigError.validation k v "Unknown configuration key"))) := by
  constructor
  · intro hk hv
    simp only [configKeys, List.mem_cons, List.not_mem_nil, or_false] at hk
    rcases hk with hk | hk | hk | hk | hk | hk <;> subst hk
    · rw [fieldRule, if_pos rfl] at hv
      exact ⟨"Expected a string matching the pattern ^https?://.+$",
        by simp [setConfigurationValue, validateByKey, validateThetaDataUrl, hv,
          fromSchemaError, keyBaseUrl]⟩
    · rw [fieldRule] at hv
      rw [if_neg (by decide), if_neg (by decide), if_neg (by decide), if_neg (by decide),
        if_pos rfl] at hv
      cases hp : jsParseInt v with
      | none =>
        exact ⟨"Must be a number between 1 and 10",
          by simp [setConfigurationValue, validateByKey, hp, keyBaseUrl, keyStartDate,
            keyOutputDir, keyTempDir, keyDbPath, keyMaxConcurrent]⟩
      | some n =>
        rw [hp] at hv
        simp only [decide_eq_false_iff_not, not_and, not_le] at hv
        refine ⟨"Must be a number between 1 and 10", ?_⟩
        have hrange : n < 1 ∨ 10 < n := by
          by_cases h1 : 1 ≤ n
          · exact Or.inr (hv h1)
          · exact Or.inl (by omega)
        simp [setConfigurationValue, validateByKey, hp, hrange, keyBaseUrl, keyStartDate,
          keyOutputDir, keyTempDir, keyDbPath, keyMaxConcurrent]
    · rw [fieldRule, if_neg (by decide), if_pos rfl] at hv
      have hnone : jsParseDate v = none := by
        cases hj : jsParseDate v with
        | none => rfl
        | some ms => rw [hj] at hv; simp at hv
      exact ⟨"Expected a valid date string",
        by simp [setConfigurationValue, validateByKey, validateDate, hnone, fromSchemaError,
          keyBaseUrl, keyStartDate]⟩
    · rw [fieldRule, if_neg (by decide), if_neg (by decide), if_pos (Or.inl rfl)] at hv
      have hlen : ¬ 1 ≤ v.length := by simpa using hv
      exact ⟨"Expected a string of at least length 1",
        by simp [setConfigurationValue, validateByKey, validateDirectoryPath, hlen,
          fromSchemaError, keyBaseUrl, keyStartDate, keyOutputDir, keyTempDir]⟩
    · rw [fieldRule, if_neg (by decide), if_neg (by decide), if_pos (Or.inr rfl)] at hv
      have hlen : ¬ 1 ≤ v.length := by simpa using hv
      exact ⟨"Expected a string of at least length 1",
        by simp [setConfigurationValue, validateByKey, validateDirectoryPath, hlen,
          fromSchemaError, keyBaseUrl, keyStartDate, keyOutputDir, keyTempDir]⟩
    · rw [fieldRule] at hv
      rw [if_neg (by decide), if_neg (by decide), if_neg (by decide), if_pos rfl] at hv
      have hbad : ¬ (1 ≤ v.length ∧ strEndsWith v ".db" = true) := by
        intro hcon
        rw [Bool.and_eq_false_iff] at hv
        rcases hv with hv | hv
        · simp [hcon.1] at hv
        · rw [hcon.2] at hv; exact Bool.noConfusion hv
      exact ⟨"Expected a string of at least length 1 matching the pattern \\.db$",
        by simp [setConfigurationValue, validateByKey, validateDatabasePath, hbad,
          fromSchemaError, keyBaseUrl, keyStartDate, keyOutputDir, keyTempDir, keyDbPath]⟩
  · intro hk
    simp only [configKeys, List.mem_cons, List.not_mem_nil, or_false, not_or] at hk
    obtain ⟨h1, h2, h3, h4, h5, h6⟩ := hk
    have hval : validateByKey k v =
        Except.error (ConfigError.validation k v "Unknown configuration key") := by
      rw [validateByKey, if_neg h1, if_neg h3, if_neg (by tauto), if_neg h6, if_neg h2]
    simp [setConfigurationValue, hval]

/-- Witness for C5: an invalid URL for `thetadata.baseUrl`, and an unknown
key, on the empty table. -/
theorem setValue_rejects_invalid_witness :
    (∃ r, setConfigurationValue "t0" keyBaseUrl "ftp://x" [] =
      ([], Except.error (ConfigError.validation keyBaseUrl "ftp://x" r))) ∧
    setConfigurationValue "t0" "bogus.key" "1" [] =
      ([], Except.error (ConfigError.validation "bogus.key" "1" "Unknown configuration key")) :=
  ⟨(setValue_rejects_invalid "t0" keyBaseUrl "ftp://x" []).1 (by decide) (by decide),
   (setValue_rejects_invalid "t0" "bogus.key" "1" []).2 (by decide)⟩

/-! Lemmas about the JS-object fold (`recordsToMap`) and the key sort. -/

theorem lookup_append_cases {β : Type} (l₁ l₂ : List (String × β)) (k : String) :
    (l₁ ++ l₂).lookup k =
      match l₁.lookup k with
      | some v => some v
      | none => l₂.lookup k := by
  induction l₁ with
  | nil => rfl
  | cons p t ih =>
    rw [List.cons_append, List.lookup, List.lookup]
    cases hb : (k == p.1) with
    | true => rfl
    | false => exact ih

theorem lookup_map_replace_self (m : List (String × String)) (k v : String)
    (hany : m.any (fun p => p.1 == k) = true) :
    (m.map (fun p => if p.1 == k then (k, v) else p)).lookup k = some v := by
  induction m with
  | nil => simp at hany
  | cons p rest ih =>
    simp only [List.map_cons]
    by_cases hp : (p.1 == k) = true
    · rw [if_pos hp, List.lookup]
      simp
    · rw [if_neg hp, List.lookup]
      have hp' : p.1 ≠ k := by simpa using hp
      have hne : (k == p.1) = false := beq_eq_false_iff_ne.mpr (fun he => hp' he.symm)
      rw [hne]
      apply ih
      simp only [List.any_cons, Bool.or_eq_true] at hany
      rcases hany with h | h
      · exact absurd h hp
      · simpa using h

theorem lookup_map_replace_other (m : List (String × String)) (k v k' : String)
    (h : k' ≠ k) :
    (m.map (fun p => if p.1 == k then (k, v) else p)).lookup k' = m.lookup k' := by
  induction m with
  | nil => rfl
  | cons p rest ih =>
    simp only [List.map_cons]
    by_cases hp : (p.1 == k) = true
    · have hke : (k' == k) = false := by rwa [beq_eq_false_iff_ne]
      have hp1 : (k' == p.1) = false := by
        rw [beq_iff_eq] at hp
        rw [hp]
        exact hke
      rw [if_pos hp, List.lookup, hke, List.lookup, hp1]
      exact ih
    · rw [if_neg hp, List.lookup, List.lookup]
      cases hq : (k' == p.1) with
      | true => rfl
      | false => exact ih

theorem lookup_objSet_self (m : List (String × String)) (k v : String) :
    (objSet m k v).lookup k = some v := by
  rw [objSet]
  split_ifs with hany
  · exact lookup_map_replace_self m k v hany
  · rw [lookup_append_cases]
    have hm : m.lookup k = none := by
      induction m with
      | nil => rfl
      | cons p rest ih =>
        simp only [List.any_cons, Bool.or_eq_true, not_or] at hany
        rw [List.lookup]
        have hne : (k == p.1) = false := by
          rw [beq_eq_false_iff_ne]
          intro he
          exact hany.1 (by simp [he])
        rw [hne]
        exact ih (by simpa using hany.2)
    rw [hm]
    simp [List.lookup]

theorem lookup_objSet_other (m : List (String × String)) (k v k' : String) (h : k' ≠ k) :
    (objSet m k v).lookup k' = m.lookup k' := by
  rw [objSet]
  split_ifs with hany
  · exact lookup_map_replace_other m k v k' h
  · rw [lookup_append_cases]
    cases hm : m.lookup k' with
    | some w => rfl
    | none =>
      rw [List.lookup]
      have hne : (k' == k) = false := by rwa [beq_eq_false_iff_ne]
      rw [hne]
      rfl

theorem foldl_objSet_lookup_of_notin (rs : List ConfigRow) :
    ∀ (m : List (String × String)) (k : String), (∀ s ∈ rs, s.key ≠ k) →
      ((rs.foldl (fun m r => objSet m r.key r.value) m).lookup k) = m.lookup k := by
  induction rs with
  | nil => intro m k _; rfl
  | cons r rest ih =>
    intro m k h
    simp only [List.foldl_cons]
    rw [ih _ _ (fun s hs => h s (List.mem_cons_of_mem _ hs))]
    exact lookup_objSet_other _ _ _ _ (fun he => h r (List.mem_cons_self _ _) he.symm)

theorem foldl_objSet_lookup_mem (rs : List ConfigRow) :
    ∀ (m : List (String × String)) (r : ConfigRow), r ∈ rs →
      (rs.map (fun x => x.key)).Nodup →
      ((rs.foldl (fun m r => objSet m r.key r.value) m).lookup r.key) = some r.value := by
  induction rs with
  | nil => intro m r h _; exact absurd h (List.not_mem_nil r)
  | cons x rest ih =>
    intro m r hmem hnd
    simp only [List.map_cons, List.nodup_cons] at hnd
    simp only [List.foldl_cons]
    rcases List.mem_cons.mp hmem with h | h
    · subst h
      have hout : ∀ s ∈ rest, s.key ≠ r.key := by
        intro s hs he
        exact hnd.1 (List.mem_map.mpr ⟨s, hs, he⟩)
      rw [foldl_objSet_lookup_of_notin rest _ _ hout]
      exact lookup_objSet_self _ _ _
    · exact ih _ _ h hnd.2

theorem recordsToMap_lookup (rs : List ConfigRow) (r : ConfigRow) (hmem : r ∈ rs)
    (hnd : (rs.map (fun x => x.key)).Nodup) :
    (recordsToMap rs).lookup r.key = some r.value :=
  foldl_objSet_lookup_mem rs [] r hmem hnd

theorem objSet_ne_nil (m : List (String × String)) (k v : String) : objSet m k v ≠ [] := by
  rw [objSet]
  split_ifs with hany
  · cases m with
    | nil => simp at hany
    | cons p rest => simp
  · simp

theorem foldl_objSet_ne_nil (rs : List ConfigRow) :
    ∀ m : List (String × String), m ≠ [] ∨ rs ≠ [] →
      rs.foldl (fun m r => objSet m r.key r.value) m ≠ [] := by
  induction rs with
  | nil =>
    intro m h
    rcases h with h | h
    · exact h
    · exact absurd rfl h
  | cons r rest ih =>
    intro m _
    simp only [List.foldl_cons]
    exact ih _ (Or.inl (objSet_ne_nil _ _ _))

theorem recordsToMap_ne_nil (rs : List ConfigRow) (h : rs ≠ []) : recordsToMap rs ≠ [] :=
  foldl_objSet_ne_nil rs [] (Or.inr h)

theorem insertByKey_perm (r : ConfigRow) (l : List ConfigRow) :
    (insertByKey r l).Perm (r :: l) := by
  induction l with
  | nil => exact List.Perm.refl _
  | cons x xs ih =>
    rw [insertByKey]
    split_ifs
    · exact List.Perm.refl _
    · exact (ih.cons x).trans (List.Perm.swap r x xs)

theorem sortByKey_perm (l : List ConfigRow) : (sortByKey l).Perm l := by
  induction l with
  | nil => exact List.Perm.refl _
  | cons r rs ih => exact (insertByKey_perm r (sortByKey rs)).trans (ih.cons r)

/-- A successful schema decode certifies every field rule of the candidate. -/
theorem validateConfiguration_ok_fields (c c' : AppConfig)
    (h : validateConfiguration c = Except.ok c') :
    matchesUrlPattern c.thetaData.baseUrl = true ∧
    c.thetaData.maxConcurrentRequests ≠ JsNum.nan ∧
    (∀ n, c.thetaData.maxConcurrentRequests = JsNum.int n → 1 ≤ n ∧ n ≤ 10) ∧
    (∀ s, c.processing.startDate = DateField.str s → (jsParseDate s).isSome = true) ∧
    1 ≤ c.processing.outputDirectory.length ∧
    1 ≤ c.processing.tempDirectory.length ∧
    1 ≤ c.database.path.length ∧ strEndsWith c.database.path ".db" = true := by
  obtain ⟨⟨burl, mx⟩, ⟨sd, od, td⟩, pth⟩ := c
  cases mx with
  | nan =>
    simp only [validateConfiguration] at h
    split_ifs at h
  | int n =>
    cases sd with
    | date ms =>
      simp only [validateConfiguration] at h
      split_ifs at h
    | str s =>
      simp only [validateConfiguration] at h
      cases hp : jsParseDate s with
      | none =>
        rw [hp] at h
        dsimp only at h
        split_ifs at h
      | some ms =>
        rw [hp] at h
        dsimp only at h
        split_ifs at h with h1 h2 h3 h4 h5
        refine ⟨h1, by simp, ?_, ?_, Nat.not_lt.mp h3, Nat.not_lt.mp h4, h5.1, h5.2⟩
        · intro n' hn'
          simp only [JsNum.int.injEq] at hn'
          subst hn'
          omega
        · intro s' hs'
          simp only [DateField.str.injEq] at hs'
          subst hs'
          simp [hp]

/-- C6 fails as stated: an empty-string stored value violates the
`minLength 1` rule for `processing.outputDirectory`, yet `getFull()`
succeeds, silently substituting the default (the `||` merge treats `""` as
absent). -/
theorem getFull_silently_defaults_on_empty_string :
    fieldRule keyOutputDir "" = false ∧
    getFullConfiguration [{ key := keyOutputDir, value := "", updated_at := "t0" }] =
      Except.ok decodedDefaultConfig :=
  ⟨rfl, rfl⟩

/-- C6 (amended: the offending stored value must be a non-empty string;
primary keys are distinct).  If any known key's stored value fails that
key's schema rule, `getFull()` and `validateFull()` fail with a
`ValidationError` instead of substituting a default. -/
theorem getFull_fails_on_invalid_nonempty_value (t : Table) (r : ConfigRow)
    (hmem : r ∈ t) (hnd : (t.map (fun x => x.key)).Nodup)
    (hkey : r.key ∈ configKeys) (hval : r.value ≠ "")
    (hbad : fieldRule r.key r.value = false) :
    (∃ value reason, getFullConfiguration t =
        Except.error (ConfigError.validation "config" value reason)) ∧
    (∃ value reason, validateFullConfiguration t =
        Except.error (ConfigError.validation "config" value reason)) := by
  have hperm := sortByKey_perm t
  have hmem' : r ∈ getAllConfiguration t := by
    rw [getAllConfiguration]
    exact hperm.mem_iff.mpr hmem
  have hnd' : ((getAllConfiguration t).map (fun x => x.key)).Nodup := by
    rw [getAllConfiguration]
    exact ((hperm.map _).nodup_iff).mpr hnd
  have hlk := recordsToMap_lookup _ r hmem' hnd'
  have hne0 : getAllConfiguration t ≠ [] := by
    intro hh
    rw [hh] at hmem'
    exact List.not_mem_nil r hmem'
  have hne : recordsToMap (getAllConfiguration t) ≠ [] := recordsToMap_ne_nil _ hne0
  obtain ⟨reason, hvc⟩ : ∃ reason,
      validateConfiguration (mergedCandidate (recordsToMap (getAllConfiguration t))) =
        Except.error reason := by
    cases hv : validateConfiguration (mergedCandidate (recordsToMap (getAllConfiguration t)))
      with
    | error e => exact ⟨e, rfl⟩
    | ok c' =>
      exfalso
      obtain ⟨f1, f2, f3, f4, f5, f6, f7, f8⟩ := validateConfiguration_ok_fields _ _ hv
      simp only [configKeys, List.mem_cons, List.not_mem_nil, or_false] at hkey
      rcases hkey with hk | hk | hk | hk | hk | hk
      · rw [hk] at hlk hbad
        rw [fieldRule, if_pos rfl] at hbad
        have hfield :
            (mergedCandidate (recordsToMap (getAllConfiguration t))).thetaData.baseUrl =
              r.value := by
          simp [mergedCandidate, hlk, jsOr, hval]
        rw [hfield] at f1
        rw [f1] at hbad
        exact Bool.noConfusion hbad
      · rw [hk] at hlk hbad
        rw [fieldRule, if_neg (by decide), if_neg (by decide), if_neg (by decide),
          if_neg (by decide), if_pos rfl] at hbad
        have hfield :
            (mergedCandidate
                (recordsToMap (getAllConfiguration t))).thetaData.maxConcurrentRequests =
              jsParseIntNum r.value := by
          simp [mergedCandidate, hlk, jsOr, hval]
        cases hp : jsParseInt r.value with
        | none =>
          refine f2 ?_
          rw [hfield, jsParseIntNum, hp]
        | some n =>
          rw [hp] at hbad
          have hint :
              (mergedCandidate
                  (recordsToMap (getAllConfiguration t))).thetaData.maxConcurrentRequests =
                JsNum.int n := by
            rw [hfield, jsParseIntNum, hp]
          have hr := f3 n hint
          rw [decide_eq_false_iff_not] at hbad
          exact hbad hr
      · rw [hk] at hlk hbad
        rw [fieldRule, if_neg (by decide), if_pos rfl] at hbad
        have hfield :
            (mergedCandidate (recordsToMap (getAllConfiguration t))).processing.startDate =
              DateField.str r.value := by
          simp [mergedCandidate, hlk, jsOr, hval]
        have hs := f4 r.value hfield
        rw [hs] at hbad
        exact Bool.noConfusion hbad
      · rw [hk] at hlk hbad
        rw [fieldRule, if_neg (by decide), if_neg (by decide), if_pos (Or.inl rfl)] at hbad
        have hfield :
            (mergedCandidate
                (recordsToMap (getAllConfiguration t))).processing.outputDirectory =
              r.value := by
          simp [mergedCandidate, hlk, jsOr, hval]
        rw [hfield] at f5
        rw [decide_eq_false_iff_not] at hbad
        exact hbad f5
      · rw [hk] at hlk hbad
        rw [fieldRule, if_neg (by decide), if_neg (by decide), if_pos (Or.inr rfl)] at hbad
        have hfield :
            (mergedCandidate
                (recordsToMap (getAllConfiguration t))).processing.tempDirectory =
              r.value := by
          simp [mergedCandidate, hlk, jsOr, hval]
        rw [hfield] at f6
        rw [decide_eq_false_iff_not] at hbad
        exact hbad f6
      · rw [hk] at hlk hbad
        rw [fieldRule, if_neg (by decide), if_neg (by decide), if_neg (by decide),
          if_pos rfl] at hbad
        have hfield :
            (mergedCandidate (recordsToMap (getAllConfiguration t))).database.path =
              r.value := by
          simp [mergedCandidate, hlk, jsOr, hval]
        rw [hfield] at f7 f8
        rw [Bool.and_eq_false_iff] at hbad
        rcases hbad with hb | hb
        · rw [decide_eq_false_iff_not] at hb
          exact hb f7
        · rw [f8] at hb
          exact Bool.noConfusion hb
  have hnotEmpty : (recordsToMap (getAllConfiguration t)).isEmpty = false := by
    cases hc : recordsToMap (getAllConfiguration t) with
    | nil => exact absurd hc hne
    | cons a l => rfl
  constructor
  · refine ⟨configJson (mergedCandidate (recordsToMap (getAllConfiguration t))), reason, ?_⟩
    rw [getFullConfiguration]
    simp only [hnotEmpty, Bool.false_eq_true, if_false]
    rw [deserializeConfig, hvc]
    rfl
  · refine ⟨configJson (mergedCandidate (recordsToMap (getAllConfiguration t))), reason, ?_⟩
    rw [validateFullConfiguration]
    rw [deserializeConfig, hvc]
    rfl

/-- Witness for C6 (amended) at a one-row table with an invalid stored
URL. -/
theorem getFull_fails_on_invalid_nonempty_value_witness :
    ∃ value reason,
      getFullConfiguration [{ key := keyBaseUrl, value := "ftp://x", updated_at := "t0" }] =
        Except.error (ConfigError.validation "config" value reason) :=
  (getFull_fails_on_invalid_nonempty_value
      [{ key := keyBaseUrl, value := "ftp://x", updated_at := "t0" }]
      { key := keyBaseUrl, value := "ftp://x", updated_at := "t0" }
      (by decide) (by decide) (by decide) (by decide) (by decide)).1

/-- C8 fails as stated: here all three invariants of the claim hold — the
resolved output and temp directories differ, the database file's parent
directory (`/w/tmp/sub`) is not the temp directory (`/w/tmp`), and the start
date (2024-01-01) is neither in the future (clock: 2024-06-01T12:00Z) nor
before 2020-01-01 — yet `validateCrossFieldRules` fails, because the code
tests the parent directory with `startsWith`, not equality. -/
theorem crossField_rejects_subdirectory_counterexample :
    resolvePath "/w" "./out" ≠ resolvePath "/w" "./tmp" ∧
    dirname (resolvePath "/w" "./tmp/sub/a.db") ≠ resolvePath "/w" "./tmp" ∧
    dateRightOf (DateField.date 1704067200000) (1717243200000 - 1717243200000 % 86400000) =
      false ∧
    dateLeftOf (DateField.date 1704067200000) minStartDate = false ∧
    validateCrossFieldRules 1717243200000 "/w"
        { thetaData := DEFAULT_CONFIG.thetaData
          processing :=
            { startDate := DateField.date 1704067200000
              outputDirectory := "./out"
              tempDirectory := "./tmp" }
          database := { path := "./tmp/sub/a.db" } } =
      Except.error (ConfigError.validation "database.path" "./tmp/sub/a.db"
        "Database should not be stored in temporary directory") :=
  ⟨by decide, by decide, rfl, rfl, rfl⟩

/-- C8 (amended: the database-directory rule is the code's `startsWith`
containment on resolved paths, and "in the future" means after local
midnight of the caller's clock).  `validateCrossFieldRules` succeeds
returning the configuration unchanged exactly when all rules hold, and each
violation produces its own distinct `ValidationError`, checked in source
order. -/
theorem crossField_characterization (now : Int) (cwd : String) (c : AppConfig) (ms : Int)
    (hd : c.processing.startDate = DateField.date ms) :
    (validateCrossFieldRules now cwd c = Except.ok c ↔
      (resolvePath cwd c.processing.outputDirectory ≠
          resolvePath cwd c.processing.tempDirectory ∧
        strStartsWith (dirname (resolvePath cwd c.database.path))
          (resolvePath cwd c.processing.tempDirectory) = false ∧
        ms ≤ now - now % 86400000 ∧ minStartDate ≤ ms)) ∧
    (resolvePath cwd c.processing.outputDirectory =
        resolvePath cwd c.processing.tempDirectory →
      validateCrossFieldRules now cwd c =
        Except.error (ConfigError.validation "processing"
          ("outputDirectory=" ++ resolvePath cwd c.processing.outputDirectory ++
            ";tempDirectory=" ++ resolvePath cwd c.processing.tempDirectory)
          "Output directory and temp directory must be different")) ∧
    (resolvePath cwd c.processing.outputDirectory ≠
        resolvePath cwd c.processing.tempDirectory →
      strStartsWith (dirname (resolvePath cwd c.database.path))
          (resolvePath cwd c.processing.tempDirectory) = true →
      validateCrossFieldRules now cwd c =
        Except.error (ConfigError.validation "database.path" c.database.path
          "Database should not be stored in temporary directory")) ∧
    (resolvePath cwd c.processing.outputDirectory ≠
        resolvePath cwd c.processing.tempDirectory →
      strStartsWith (dirname (resolvePath cwd c.database.path))
          (resolvePath cwd c.processing.tempDirectory) = false →
      now - now % 86400000 < ms →
      validateCrossFieldRules now cwd c =
        Except.error (ConfigError.validation "processing.startDate"
          (startDateIsoString c.processing.startDate) "Start date cannot be in the future")) ∧
    (resolvePath cwd c.processing.outputDirectory ≠
        resolvePath cwd c.processing.tempDirectory →
      strStartsWith (dirname (resolvePath cwd c.database.path))
          (resolvePath cwd c.processing.tempDirectory) = false →
      ms ≤ now - now % 86400000 → ms < minStartDate →
      validateCrossFieldRules now cwd c =
        Except.error (ConfigError.validation "processing.startDate"
          (startDateIsoString c.processing.startDate)
          "Start date cannot be before 2020-01-01")) := by
  by_cases h1 : resolvePath cwd c.processing.outputDirectory =
      resolvePath cwd c.processing.tempDirectory
  · refine ⟨?_, fun _ => ?_, fun hn => absurd h1 hn, fun hn => absurd h1 hn,
      fun hn => absurd h1 hn⟩ <;>
      simp [validateCrossFieldRules, h1]
  · by_cases h2 : strStartsWith (dirname (resolvePath cwd c.database.path))
        (resolvePath cwd c.processing.tempDirectory) = true
    · refine ⟨?_, fun he => absurd he h1, fun _ _ => ?_, fun _ hf _ => ?_, fun _ hf _ _ => ?_⟩
      · simp [validateCrossFieldRules, h1, h2]
      · simp [validateCrossFieldRules, h1, h2]
      · rw [hf] at h2
        exact Bool.noConfusion h2
      · rw [hf] at h2
        exact Bool.noConfusion h2
    · have h2' : strStartsWith (dirname (resolvePath cwd c.database.path))
          (resolvePath cwd c.processing.tempDirectory) = false := by
        cases hb : strStartsWith (dirname (resolvePath cwd c.database.path))
            (resolvePath cwd c.processing.tempDirectory) with
        | true => exact absurd hb h2
        | false => rfl
      by_cases h3 : now - now % 86400000 < ms
      · refine ⟨?_, fun he => absurd he h1, fun _ ht => ?_, fun _ _ _ => ?_,
          fun _ _ hle _ => ?_⟩
        · simp only [validateCrossFieldRules, hd, dateRightOf, h1, if_neg h1, h2',
            Bool.false_eq_true, if_false, decide_eq_true_eq, if_pos h3]
          constructor
          · intro hcon
            exact Except.noConfusion hcon
          · intro hcon
            omega
        · rw [ht] at h2'
          exact Bool.noConfusion h2'
        · simp [validateCrossFieldRules, hd, dateRightOf, h1, h2', h3]
        · omega
      · by_cases h4 : ms < minStartDate
        · refine ⟨?_, fun he => absurd he h1, fun _ ht => ?_, fun _ _ hf => ?_,
            fun _ _ _ _ => ?_⟩
          · simp only [validateCrossFieldRules, hd, dateRightOf, dateLeftOf, h1, if_neg h1,
              h2', Bool.false_eq_true, if_false, decide_eq_true_eq, if_neg h3, if_pos h4]
            constructor
            · intro hcon
              exact Except.noConfusion hcon
            · intro hcon
              omega
          · rw [ht] at h2'
            exact Bool.noConfusion h2'
          · exact absurd hf h3
          · simp [validateCrossFieldRules, hd, dateRightOf, dateLeftOf, h1, h2', h3, h4]
        · refine ⟨?_, fun he => absurd he h1, fun _ ht => ?_, fun _ _ hf => ?_,
            fun _ _ _ hlt => ?_⟩
          · simp only [validateCrossFieldRules, hd, dateRightOf, dateLeftOf, h1, if_neg h1,
              h2', Bool.false_eq_true, if_false, decide_eq_true_eq, if_neg h3, if_neg h4]
            constructor
            · intro _
              exact ⟨h1, trivial, by omega, by omega⟩
            · intro _
              trivial
          · rw [ht] at h2'
            exact Bool.noConfusion h2'
          · exact absurd hf h3
          · exact absurd hlt h4

/-- Witness for C8: with clock 2024-06-01T12:00Z and distinct directories,
the rules pass for start date 2024-01-01, fail with the future error for
2024-06-02 (tomorrow), and fail with the epoch-floor error for
2019-12-31. -/
theorem crossField_characterization_witness :
    validateCrossFieldRules 1717243200000 "/w"
        { thetaData := DEFAULT_CONFIG.thetaData
          processing :=
            { startDate := DateField.date 1704067200000
              outputDirectory := "./out"
              tempDirectory := "./tmp" }
          database := { path := "./data/x.db" } } =
      Except.ok
        { thetaData := DEFAULT_CONFIG.thetaData
          processing :=
            { startDate := DateField.date 1704067200000
              outputDirectory := "./out"
              tempDirectory := "./tmp" }
          database := { path := "./data/x.db" } } ∧
    validateCrossFieldRules 1717243200000 "/w"
        { thetaData := DEFAULT_CONFIG.thetaData
          processing :=
            { startDate := DateField.date 1717286400000
              outputDirectory := "./out"
              tempDirectory := "./tmp" }
          database := { path := "./data/x.db" } } =
      Except.error (ConfigError.validation "processing.startDate"
        (startDateIsoString (DateField.date 1717286400000))
        "Start date cannot be in the future") ∧
    validateCrossFieldRules 1717243200000 "/w"
        { thetaData := DEFAULT_CONFIG.thetaData
          processing :=
            { startDate := DateField.date 1577750400000
              outputDirectory := "./out"
              tempDirectory := "./tmp" }
          database := { path := "./data/x.db" } } =
      Except.error (ConfigError.validation "processing.startDate"
        (startDateIsoString (DateField.date 1577750400000))
        "Start date cannot be before 2020-01-01") :=
  ⟨((crossField_characterization 1717243200000 "/w" _ 1704067200000 rfl).1).mpr
      (by refine ⟨by decide, by decide, by decide, by decide⟩),
   ((crossField_characterization 1717243200000 "/w" _ 1717286400000 rfl).2.2.2.1)
      (by decide) (by decide) (by decide),
   ((crossField_characterization 1717243200000 "/w" _ 1577750400000 rfl).2.2.2.2)
      (by decide) (by decide) (by decide) (by decide)⟩

/-! Decimal-digit printing and parsing lemmas, toward the
`Date.prototype.toString` round trip. -/

theorem digitVal_digitChar : ∀ d : Nat, d < 10 → digitVal (digitChar d) = d := by decide

theorem digitChar_isDigit : ∀ d : Nat, d < 10 → (digitChar d).isDigit = true := by decide

theorem digitChar_ne_space : ∀ d : Nat, d < 10 → digitChar d ≠ ' ' := by decide

theorem digitChar_ne_minus : ∀ d : Nat, d < 10 → digitChar d ≠ '-' := by decide

theorem digitsVal_append_one (ds : List Char) (c : Char) :
    digitsVal (ds ++ [c]) = 10 * digitsVal ds + digitVal c := by
  rw [digitsVal, digitsVal, List.foldl_append]
  rfl

theorem natToDigitsAux_spec :
    ∀ fuel n, n < 10 ^ fuel →
      digitsVal (natToDigitsAux fuel n) = n ∧
      (∀ c ∈ natToDigitsAux fuel n, c.isDigit = true) ∧
      (1 ≤ fuel → natToDigitsAux fuel n ≠ []) := by
  intro fuel
  induction fuel with
  | zero =>
    intro n hn
    have hn0 : n = 0 := by simpa using hn
    subst hn0
    exact ⟨rfl, by simp [natToDigitsAux], fun h => absurd h (by omega)⟩
  | succ fuel ih =>
    intro n hn
    rw [natToDigitsAux]
    split_ifs with h10
    · refine ⟨?_, ?_, fun _ => by simp⟩
      · show digitsVal [digitChar n] = n
        rw [digitsVal]
        simp [digitVal_digitChar n h10]
      · intro c hc
        simp only [List.mem_singleton] at hc
        subst hc
        exact digitChar_isDigit n h10
    · have hp : (10 : Nat) ^ (fuel + 1) = 10 ^ fuel * 10 := pow_succ 10 fuel
      have hdiv : n / 10 < 10 ^ fuel := by omega
      obtain ⟨ih1, ih2, _⟩ := ih (n / 10) hdiv
      refine ⟨?_, ?_, fun _ => by simp⟩
      · rw [digitsVal_append_one, ih1, digitVal_digitChar (n % 10) (by omega)]
        omega
      · intro c hc
        rcases List.mem_append.mp hc with hmem | hmem
        · exact ih2 c hmem
        · simp only [List.mem_singleton] at hmem
          subst hmem
          exact digitChar_isDigit (n % 10) (by omega)

theorem natToDigits_spec (n : Nat) :
    digitsVal (natToDigits n) = n ∧
    (∀ c ∈ natToDigits n, c.isDigit = true) ∧ natToDigits n ≠ [] := by
  have hlt : n < 10 ^ (n + 1) := by
    have h1 : n < 10 ^ n := Nat.lt_pow_self (by norm_num) n
    have h2 : (10 : Nat) ^ n ≤ 10 ^ (n + 1) := Nat.pow_le_pow_right (by norm_num) (by omega)
    omega
  obtain ⟨h1, h2, h3⟩ := natToDigitsAux_spec (n + 1) n hlt
  exact ⟨h1, h2, h3 (by omega)⟩

theorem digitsVal_replicate_zero (k : Nat) (ds : List Char) :
    digitsVal (List.replicate k '0' ++ ds) = digitsVal ds := by
  induction k with
  | zero => rfl
  | succ k ih =>
    rw [List.replicate_succ, List.cons_append]
    show digitsVal (List.replicate k '0' ++ ds) = digitsVal ds
    exact ih

theorem pad4_spec (n : Nat) :
    digitsVal (pad4 n) = n ∧ (∀ c ∈ pad4 n, c.isDigit = true) ∧ pad4 n ≠ [] := by
  obtain ⟨h1, h2, h3⟩ := natToDigits_spec n
  refine ⟨?_, ?_, ?_⟩
  · rw [pad4, digitsVal_replicate_zero, h1]
  · intro c hc
    rcases List.mem_append.mp hc with hmem | hmem
    · rw [List.eq_of_mem_replicate hmem]
      rfl
    · exact h2 c hmem
  · rw [pad4]
    intro hcon
    rcases List.append_eq_nil.mp hcon with ⟨_, hr⟩
    exact h3 hr

theorem pad2_spec (n : Nat) (h : n < 100) :
    digitsVal (pad2 n) = n ∧ (∀ c ∈ pad2 n, c.isDigit = true) ∧ pad2 n ≠ [] := by
  have hq : n / 10 % 10 = n / 10 := by omega
  refine ⟨?_, ?_, by simp [pad2]⟩
  · show digitsVal [digitChar (n / 10 % 10), digitChar (n % 10)] = n
    rw [digitsVal]
    simp only [List.foldl_cons, List.foldl_nil]
    rw [digitVal_digitChar (n / 10 % 10) (by omega), digitVal_digitChar (n % 10) (by omega)]
    omega
  · intro c hc
    rcases List.mem_cons.mp hc with hmem | hmem
    · subst hmem
      exact digitChar_isDigit _ (by omega)
    · simp only [List.mem_singleton] at hmem
      subst hmem
      exact digitChar_isDigit _ (by omega)

theorem isDigit_ne_space {c : Char} (h : c.isDigit = true) : c ≠ ' ' := by
  intro hcon
  subst hcon
  exact Bool.noConfusion h

theorem isDigit_ne_minus {c : Char} (h : c.isDigit = true) : c ≠ '-' := by
  intro hcon
  subst hcon
  exact Bool.noConfusion h

theorem breakAtSpace_token (tok rest : List Char) (h : ∀ c ∈ tok, c ≠ ' ') :
    breakAtSpace (tok ++ ' ' :: rest) = (tok, rest) := by
  induction tok with
  | nil => rfl
  | cons c cs ih =>
    rw [List.cons_append, breakAtSpace]
    rw [if_neg (h c (List.mem_cons_self _ _))]
    rw [ih (fun x hx => h x (List.mem_cons_of_mem _ hx))]

theorem weekdayName_ok (i : Int) :
    (∀ c ∈ weekdayName i, c ≠ ' ') ∧ weekdayName i ≠ [] := by
  rw [weekdayName]
  split_ifs <;> exact ⟨by decide, by decide⟩

theorem monthName_ok (m : Int) (h1 : 1 ≤ m) (h2 : m ≤ 12) :
    monthFromName (monthName m) = some m ∧ (∀ c ∈ monthName m, c ≠ ' ') := by
  interval_cases m <;> exact ⟨by decide, by decide⟩

theorem allDigits_of_mem (cs : List Char) (h : ∀ c ∈ cs, c.isDigit = true) :
    allDigits cs = true := by
  rw [allDigits, List.all_eq_true]
  exact h

theorem parseYearTok_yearChars (y : Int) :
    parseYearTok (yearChars y) = some y ∧ (∀ c ∈ yearChars y, c ≠ ' ') := by
  rw [yearChars]
  split_ifs with hneg
  · obtain ⟨h1, h2, h3⟩ := natToDigits_spec (-y).toNat
    constructor
    · rw [parseYearTok]
      rw [if_pos rfl]
      have hne : (natToDigits (-y).toNat).isEmpty = false := by
        cases hc : natToDigits (-y).toNat with
        | nil => exact absurd hc h3
        | cons a l => rfl
      rw [hne, allDigits_of_mem _ h2]
      simp only [Bool.not_false, Bool.and_self, if_true]
      rw [h1]
      congr 1
      omega
    · intro c hc
      rcases List.mem_cons.mp hc with hmem | hmem
      · subst hmem
        decide
      · exact isDigit_ne_space (h2 c hmem)
  · obtain ⟨h1, h2, h3⟩ := pad4_spec y.toNat
    obtain ⟨c0, cs0, hcs⟩ : ∃ c0 cs0, pad4 y.toNat = c0 :: cs0 := by
      cases hc : pad4 y.toNat with
      | nil => exact absurd hc h3
      | cons a l => exact ⟨a, l, rfl⟩
    rw [hcs] at h1 h2
    constructor
    · rw [hcs, parseYearTok]
      rw [if_neg (isDigit_ne_minus (h2 c0 (List.mem_cons_self _ _)))]
      rw [allDigits_of_mem _ h2]
      simp only [if_true]
      rw [h1]
      congr 1
      omega
    · rw [hcs]
      intro c hc
      exact isDigit_ne_space (h2 c hc)

theorem ymdOfDayNumber_bounds (z y m d : Int) (h : ymdOfDayNumber z = (y, m, d)) :
    1 ≤ m ∧ m ≤ 12 ∧ 1 ≤ d ∧ d ≤ 31 := by
  simp only [ymdOfDayNumber] at h
  split_ifs at h with hspec
  · simp only [Prod.mk.injEq] at h
    obtain ⟨_, hm, hd⟩ := h
    subst hm
    subst hd
    norm_num
  · have hr1 : 0 ≤ z % 146097 % 36524 % 1461 % 365 ∧ z % 146097 % 36524 % 1461 % 365 ≤ 364 := by
      omega
    obtain ⟨m0, d0, hmd⟩ : ∃ m0 d0, monthDayOfDoy
        (isLeapYear (400 * (z / 146097) + 100 * (z % 146097 / 36524) +
          4 * (z % 146097 % 36524 / 1461) + z % 146097 % 36524 % 1461 / 365 + 1))
        (z % 146097 % 36524 % 1461 % 365) = (m0, d0) :=
      ⟨_, _, rfl⟩
    have hinv := monthDay_doy_inverse _ _ _ _ hr1.1 hr1.2 hmd
    rw [hmd] at h
    simp only [Prod.mk.injEq] at h
    obtain ⟨_, hm, hd⟩ := h
    subst hm
    subst hd
    exact ⟨hinv.2.1, hinv.2.2.1, hinv.2.2.2.1, hinv.2.2.2.2⟩

theorem weekdayName_length (i : Int) : (weekdayName i).length = 3 := by
  rw [weekdayName]
  split_ifs <;> rfl

theorem monthName_length (m : Int) : (monthName m).length = 3 := by
  rw [monthName]
  split_ifs <;> rfl

theorem yearChars_length_pos (y : Int) : 1 ≤ (yearChars y).length := by
  rw [yearChars]
  split_ifs
  · simp
  · have h3 := (pad4_spec y.toNat).2.2
    cases hc : pad4 y.toNat with
    | nil => exact absurd hc h3
    | cons a l => simp [hc]

theorem jsDateToChars_length (ms : Int) : 13 ≤ (jsDateToChars ms).length := by
  simp only [jsDateToChars, List.length_append, List.length_cons, weekdayName_length,
    monthName_length]
  have h1 := yearChars_length_pos (ymdOfDayNumber (ms / 86400000 + epochDayNumber)).1
  have h2 : ∀ n : Nat, (pad2 n).length = 2 := fun _ => rfl
  rw [h2, h2, h2, h2]
  omega

theorem isoParse_some_length :
    ∀ (cs : List Char) (v : Int), isoParse cs = some v → cs.length = 10
  | [_, _, _, _, _, _, _, _, _, _], _, _ => rfl
  | [], _, h => Option.noConfusion h
  | [_], _, h => Option.noConfusion h
  | [_, _], _, h => Option.noConfusion h
  | [_, _, _], _, h => Option.noConfusion h
  | [_, _, _, _], _, h => Option.noConfusion h
  | [_, _, _, _, _], _, h => Option.noConfusion h
  | [_, _, _, _, _, _], _, h => Option.noConfusion h
  | [_, _, _, _, _, _, _], _, h => Option.noConfusion h
  | [_, _, _, _, _, _, _, _], _, h => Option.noConfusion h
  | [_, _, _, _, _, _, _, _, _], _, h => Option.noConfusion h
  | _ :: _ :: _ :: _ :: _ :: _ :: _ :: _ :: _ :: _ :: _ :: _, _, h => Option.noConfusion h

theorem parseTimeTok_pads (a b c : Nat) (ha : a < 100) (hb : b < 100) (hc : c < 100) :
    parseTimeTok (pad2 a ++ ':' :: (pad2 b ++ ':' :: pad2 c)) =
      some (((a : Nat) : Int), ((b : Nat) : Int), ((c : Nat) : Int)) := by
  show parseTimeTok
      [digitChar (a / 10 % 10), digitChar (a % 10), ':', digitChar (b / 10 % 10),
       digitChar (b % 10), ':', digitChar (c / 10 % 10), digitChar (c % 10)] = _
  rw [parseTimeTok]
  rw [if_pos ⟨rfl, rfl, digitChar_isDigit _ (by omega), digitChar_isDigit _ (by omega),
    digitChar_isDigit _ (by omega), digitChar_isDigit _ (by omega),
    digitChar_isDigit _ (by omega), digitChar_isDigit _ (by omega)⟩]
  have ea : 10 * digitVal (digitChar (a / 10 % 10)) + digitVal (digitChar (a % 10)) = a := by
    rw [digitVal_digitChar _ (by omega), digitVal_digitChar _ (by omega)]
    omega
  have eb : 10 * digitVal (digitChar (b / 10 % 10)) + digitVal (digitChar (b % 10)) = b := by
    rw [digitVal_digitChar _ (by omega), digitVal_digitChar _ (by omega)]
    omega
  have ec : 10 * digitVal (digitChar (c / 10 % 10)) + digitVal (digitChar (c % 10)) = c := by
    rw [digitVal_digitChar _ (by omega), digitVal_digitChar _ (by omega)]
    omega
  rw [ea, eb, ec]

theorem parseToStringFormat_build
    (wd mon day year time rest : List Char)
    (hwdS : ∀ c ∈ wd, c ≠ ' ') (hwdN : wd ≠ [])
    (hmonS : ∀ c ∈ mon, c ≠ ' ')
    (hdayS : ∀ c ∈ day, c ≠ ' ') (hdayD : allDigits day = true) (hdayN : day ≠ [])
    (hyearS : ∀ c ∈ year, c ≠ ' ')
    (htimeS : ∀ c ∈ time, c ≠ ' ')
    (m : Int) (hm : monthFromName mon = some m)
    (y : Int) (hy : parseYearTok year = some y)
    (t : Int × Int × Int) (ht : parseTimeTok time = some t) :
    parseToStringFormat
      (wd ++ ' ' :: (mon ++ ' ' :: (day ++ ' ' :: (year ++ ' ' :: (time ++ ' ' :: rest))))) =
      some ((dayNumberOfYmd y m (digitsVal day : Int) - epochDayNumber) * 86400000 +
        (t.1 * 3600 + t.2.1 * 60 + t.2.2) * 1000) := by
  have e1 := breakAtSpace_token wd
    (mon ++ ' ' :: (day ++ ' ' :: (year ++ ' ' :: (time ++ ' ' :: rest)))) hwdS
  have e2 := breakAtSpace_token mon
    (day ++ ' ' :: (year ++ ' ' :: (time ++ ' ' :: rest))) hmonS
  have e3 := breakAtSpace_token day (year ++ ' ' :: (time ++ ' ' :: rest)) hdayS
  have e4 := breakAtSpace_token year (time ++ ' ' :: rest) hyearS
  have e5 := breakAtSpace_token time rest htimeS
  have hwde : wd.isEmpty = false := by
    cases wd with
    | nil => exact absurd rfl hwdN
    | cons a l => rfl
  have hdaye : day.isEmpty = false := by
    cases day with
    | nil => exact absurd rfl hdayN
    | cons a l => rfl
  simp [parseToStringFormat, e1, e2, e3, e4, e5, hwde, hdaye, hdayD, hm, hy, ht]

theorem timeTokenChars_ne_space (a b c : Nat) (ha : a < 100) (hb : b < 100) (hc : c < 100) :
    ∀ ch ∈ pad2 a ++ ':' :: (pad2 b ++ ':' :: pad2 c), ch ≠ ' ' := by
  intro ch hch
  rcases List.mem_append.mp hch with h | h
  · exact isDigit_ne_space ((pad2_spec a ha).2.1 ch h)
  · rcases List.mem_cons.mp h with h | h
    · subst h
      decide
    · rcases List.mem_append.mp h with h | h
      · exact isDigit_ne_space ((pad2_spec b hb).2.1 ch h)
      · rcases List.mem_cons.mp h with h | h
        · subst h
          decide
        · exact isDigit_ne_space ((pad2_spec c hc).2.1 ch h)

/-- Parsing the `toString` rendering of a timestamp recovers the timestamp
truncated to whole seconds: the format has no milliseconds field. -/
theorem jsParseDate_toString_output (ms : Int) :
    jsParseDate (jsDateToString ms) = some (ms - ms % 1000) := by
  obtain ⟨y, m, d, hymd⟩ : ∃ y m d,
      ymdOfDayNumber (ms / 86400000 + epochDayNumber) = (y, m, d) := ⟨_, _, _, rfl⟩
  have hb := ymdOfDayNumber_bounds _ _ _ _ hymd
  have hrt := dayNumber_ymd_roundtrip _ _ _ _ hymd
  have hshape : jsDateToChars ms =
      weekdayName ((ms / 86400000 + epochDayNumber) % 7) ++ ' ' ::
        (monthName m ++ ' ' :: (pad2 d.toNat ++ ' ' :: (yearChars y ++ ' ' ::
          ((pad2 (ms % 86400000 / 3600000).toNat ++ ':' ::
            (pad2 (ms % 86400000 % 3600000 / 60000).toNat ++ ':' ::
              pad2 (ms % 86400000 % 60000 / 1000).toNat)) ++ ' ' :: jsTimeSuffix)))) := by
    simp [jsDateToChars, hymd, List.append_assoc]
  have hiso : isoParse (jsDateToChars ms) = none := by
    cases hc : isoParse (jsDateToChars ms) with
    | none => rfl
    | some v =>
      have hlen := isoParse_some_length _ _ hc
      have h13 := jsDateToChars_length ms
      omega
  have hstep : jsParseDate (jsDateToString ms) = parseToStringFormat (jsDateToChars ms) := by
    show (match isoParse (jsDateToChars ms) with
          | some v => some v
          | none => parseToStringFormat (jsDateToChars ms)) =
        parseToStringFormat (jsDateToChars ms)
    rw [hiso]
  rw [hstep, hshape]
  have hwd := weekdayName_ok ((ms / 86400000 + epochDayNumber) % 7)
  have hmon := monthName_ok m hb.1 hb.2.1
  have hday := pad2_spec d.toNat (by omega)
  have hyear := parseYearTok_yearChars y
  have ht := parseTimeTok_pads (ms % 86400000 / 3600000).toNat
    (ms % 86400000 % 3600000 / 60000).toNat (ms % 86400000 % 60000 / 1000).toNat
    (by omega) (by omega) (by omega)
  rw [parseToStringFormat_build
    (weekdayName ((ms / 86400000 + epochDayNumber) % 7)) (monthName m) (pad2 d.toNat)
    (yearChars y)
    (pad2 (ms % 86400000 / 3600000).toNat ++ ':' ::
      (pad2 (ms % 86400000 % 3600000 / 60000).toNat ++ ':' ::
        pad2 (ms % 86400000 % 60000 / 1000).toNat))
    jsTimeSuffix
    hwd.1 hwd.2 hmon.2
    (fun c hc => isDigit_ne_space (hday.2.1 c hc))
    (allDigits_of_mem _ hday.2.1) hday.2.2
    hyear.2
    (timeTokenChars_ne_space _ _ _ (by omega) (by omega) (by omega))
    m hmon.1 y hyear.1 _ ht]
  rw [hday.1]
  have hd : ((d.toNat : Nat) : Int) = d := by omega
  rw [hd, hrt]
  simp only [Option.some.injEq]
  omega

/-- `parseInt(n.toString(), 10)` recovers small positive integers. -/
theorem jsParseIntNum_intToString_small (n : Int) (h1 : 1 ≤ n) (h2 : n ≤ 10) :
    jsParseIntNum (intToString n) = JsNum.int n := by
  interval_cases n <;> rfl

theorem ne_empty_of_length {s : String} (h : 1 ≤ s.length) : s ≠ "" := by
  intro hcon
  subst hcon
  exact absurd h (by decide)

theorem matchesUrlPattern_ne_empty {s : String} (h : matchesUrlPattern s = true) : s ≠ "" := by
  intro hcon
  subst hcon
  exact absurd h (by decide)

theorem intToString_ne_empty (n : Int) : intToString n ≠ "" := by
  intro hcon
  have hdata : intToChars n = [] := congrArg String.data hcon
  rw [intToChars] at hdata
  split_ifs at hdata
  exact (natToDigits_spec n.toNat).2.2 hdata

theorem jsDateToString_ne_empty (ms : Int) : jsDateToString ms ≠ "" := by
  intro hcon
  have hdata : jsDateToChars ms = [] := congrArg String.data hcon
  have h13 := jsDateToChars_length ms
  rw [hdata] at h13
  exact absurd h13 (by decide)

/-- The merge inside `deserializeConfig` on the output of `serializeConfig`
returns exactly the serialized fields when none of them is the empty string
(the `||` default substitution does not fire). -/
theorem mergedCandidate_serialize (burl : String) (mx : JsNum) (sd : DateField)
    (od td pth : String)
    (hb : burl ≠ "") (hmx : jsNumToString mx ≠ "") (hsd : dateFieldRawString sd ≠ "")
    (ho : od ≠ "") (ht : td ≠ "") (hp : pth ≠ "") :
    mergedCandidate (serializeConfig ⟨⟨burl, mx⟩, ⟨sd, od, td⟩, ⟨pth⟩⟩) =
      ⟨⟨burl, jsParseIntNum (jsNumToString mx)⟩,
       ⟨DateField.str (dateFieldRawString sd), od, td⟩, ⟨pth⟩⟩ := by
  have l1 : (serializeConfig ⟨⟨burl, mx⟩, ⟨sd, od, td⟩, ⟨pth⟩⟩).lookup keyBaseUrl =
      some burl := rfl
  have l2 : (serializeConfig ⟨⟨burl, mx⟩, ⟨sd, od, td⟩, ⟨pth⟩⟩).lookup keyMaxConcurrent =
      some (jsNumToString mx) := rfl
  have l3 : (serializeConfig ⟨⟨burl, mx⟩, ⟨sd, od, td⟩, ⟨pth⟩⟩).lookup keyStartDate =
      some (dateFieldRawString sd) := rfl
  have l4 : (serializeConfig ⟨⟨burl, mx⟩, ⟨sd, od, td⟩, ⟨pth⟩⟩).lookup keyOutputDir =
      some od := rfl
  have l5 : (serializeConfig ⟨⟨burl, mx⟩, ⟨sd, od, td⟩, ⟨pth⟩⟩).lookup keyTempDir =
      some td := rfl
  have l6 : (serializeConfig ⟨⟨burl, mx⟩, ⟨sd, od, td⟩, ⟨pth⟩⟩).lookup keyDbPath =
      some pth := rfl
  simp only [mergedCandidate, l1, l2, l3, l4, l5, l6, jsOr]
  rw [if_neg hb, if_neg hmx, if_neg hsd, if_neg ho, if_neg ht, if_neg hp]

/-- Schema validation succeeds on a candidate whose fields all satisfy their
rules, decoding the start-date string. -/
theorem validateConfiguration_ok_of_valid (burl : String) (n : Int) (s : String) (ms : Int)
    (od td pth : String)
    (hurl : matchesUrlPattern burl = true) (hn1 : 1 ≤ n) (hn2 : n ≤ 10)
    (hp : jsParseDate s = some ms)
    (hod : 1 ≤ od.length) (htd : 1 ≤ td.length)
    (hpl : 1 ≤ pth.length) (hpe : strEndsWith pth ".db" = true) :
    validateConfiguration ⟨⟨burl, JsNum.int n⟩, ⟨DateField.str s, od, td⟩, ⟨pth⟩⟩ =
      Except.ok ⟨⟨burl, JsNum.int n⟩, ⟨DateField.date ms, od, td⟩, ⟨pth⟩⟩ := by
  simp only [validateConfiguration]
  rw [if_neg (show ¬¬(matchesUrlPattern burl = true) from fun hcon => hcon hurl)]
  rw [if_neg (show ¬(n < 1 ∨ 10 < n) by omega)]
  rw [hp]
  dsimp only
  rw [if_neg (show ¬(od.length < 1) by omega)]
  rw [if_neg (show ¬(td.length < 1) by omega)]
  rw [if_neg (show ¬¬(1 ≤ pth.length ∧ strEndsWith pth ".db" = true) from
    fun hcon => hcon ⟨hpl, hpe⟩)]

/-- The serialize/deserialize round trip for valid typed configurations with
whole-second start dates. -/
theorem deserialize_serialize_of_valid (c : AppConfig) (ms : Int)
    (hv : validTypedConfig c) (hsd : c.processing.startDate = DateField.date ms)
    (hms : ms % 1000 = 0) :
    deserializeConfig (serializeConfig c) = Except.ok c := by
  obtain ⟨⟨burl, mx⟩, ⟨sd, od, td⟩, ⟨pth⟩⟩ := c
  obtain ⟨hurl, ⟨n, hmx, hn1, hn2⟩, -, hod, htd, hpl, hpe⟩ := hv
  replace hurl : matchesUrlPattern burl = true := hurl
  replace hmx : mx = JsNum.int n := hmx
  replace hod : 1 ≤ od.length := hod
  replace htd : 1 ≤ td.length := htd
  replace hpl : 1 ≤ pth.length := hpl
  replace hpe : strEndsWith pth ".db" = true := hpe
  replace hsd : sd = DateField.date ms := hsd
  subst hmx
  subst hsd
  have hparse : jsParseDate (jsDateToString ms) = some ms := by
    rw [jsParseDate_toString_output]
    congr 1
    omega
  have hcand := mergedCandidate_serialize burl (JsNum.int n) (DateField.date ms) od td pth
    (matchesUrlPattern_ne_empty hurl) (intToString_ne_empty n) (jsDateToString_ne_empty ms)
    (ne_empty_of_length hod) (ne_empty_of_length htd) (ne_empty_of_length hpl)
  have hval := validateConfiguration_ok_of_valid burl n (jsDateToString ms) ms od td pth
    hurl hn1 hn2 hparse hod htd hpl hpe
  simp only [deserializeConfig]
  rw [hcand]
  simp only [jsNumToString, dateFieldRawString]
  rw [jsParseIntNum_intToString_small n hn1 hn2, hval]

/-- C9 fails as stated: serialization renders the start date with
`Date.prototype.toString()`, whose format carries no milliseconds, so the
valid configuration whose start date is 2024-01-01T00:00:00.123Z
deserializes to the truncated date 2024-01-01T00:00:00.000Z, not to itself:
`deserialize(serialize(config)) ≠ config`. -/
theorem serialize_roundtrip_counterexample :
    validTypedConfig fracSecondConfig ∧
    deserializeConfig (serializeConfig fracSecondConfig) =
      Except.ok decodedDefaultConfig ∧
    decodedDefaultConfig ≠ fracSecondConfig := by
  refine ⟨⟨rfl, ⟨4, rfl, by decide, by decide⟩,
    ⟨1704067200123, rfl, by decide⟩, by decide, by decide, by decide, rfl⟩, rfl, by decide⟩

/-- C9 (amended): full schema validation of `DEFAULT_CONFIG` succeeds,
decoding it to the typed default configuration; and for every valid typed
configuration object whose start date lies on a whole second, the
serialize/deserialize pair of the configuration service round-trips:
`deserialize(serialize(config)) = config`. -/
theorem validateAll_defaults_and_serialize_roundtrip :
    validateConfiguration DEFAULT_CONFIG = Except.ok decodedDefaultConfig ∧
    ∀ (c : AppConfig) (ms : Int), validTypedConfig c →
      c.processing.startDate = DateField.date ms → ms % 1000 = 0 →
      deserializeConfig (serializeConfig c) = Except.ok c := by
  exact ⟨rfl, fun c ms hv hsd hms => deserialize_serialize_of_valid c ms hv hsd hms⟩

/-- Witness: the round trip evaluated at the decoded default configuration
(start date 1704067200000 ms, a whole second). -/
theorem validateAll_defaults_and_serialize_roundtrip_witness :
    deserializeConfig (serializeConfig decodedDefaultConfig) =
      Except.ok decodedDefaultConfig :=
  validateAll_defaults_and_serialize_roundtrip.2 decodedDefaultConfig 1704067200000
    ⟨rfl, ⟨4, rfl, by decide, by decide⟩, ⟨1704067200000, rfl, by decide⟩,
     by decide, by decide, by decide, rfl⟩ rfl (by decide)

end SpxPipeline
